import Mathlib

/-!
Verification of the pixel-archives backend against its specification.

Shallow embedding of the Rust sources.  Each definition is transcribed from
the function named in its doc comment; machine integers are modelled by
`Nat`/`Int` (with explicit wrap-around where the Rust cast semantics makes it
observable), fallible functions return `Except`, and the `f64` arithmetic of
the rate limiter and of the creator-share computation is modelled by exact
rational arithmetic (`ℚ`), with Rust's `f64::round` (round half away from
zero) modelled by `round` since all the rounded quantities are non-negative.
-/

namespace PixelArchives

/-- Error kinds from `src/error/mod.rs` (only the constructors reached by the
    functions embedded here). -/
inductive AppError where
  | CanvasNotFound
  | InvalidCanvasStateTransition
  | InvalidParams (msg : String)
  | PixelLocked
  | BidTooLow (minLamports : Nat)
  | CooldownActive (remainingMs : Nat)
  | NotCollaborator
  | TransactionFailed (msg : String)
  | SolanaRpc (msg : String)
  | UserNotFound
  | NotCanvasOwner
deriving DecidableEq, Repr

/-- `CanvasState` from `src/db/entities/canvas.rs`. -/
inductive CanvasState where
  | draft
  | publishing
  | published
  | mintPending
  | minting
  | minted
deriving DecidableEq, Repr

/-- `CanvasState::is_valid_transition` from `src/db/entities/canvas.rs`
    (lines 60-76): the `matches!` over the eight allowed edges. -/
def CanvasState.is_valid_transition : CanvasState → CanvasState → Bool
  | .draft, .publishing => true
  | .publishing, .published => true
  | .published, .mintPending => true
  | .mintPending, .minting => true
  | .minting, .minted => true
  | .publishing, .draft => true
  | .mintPending, .published => true
  | .minting, .published => true
  | _, _ => false

/-- The canvas row (`canvas::Model`), restricted to the columns the embedded
    operations read or write. -/
structure CanvasRec where
  id : Nat
  ownerId : Nat
  name : String
  inviteCode : String
  state : CanvasState
  canvasPda : Option String
  mintAddress : Option String
  totalEscrowed : Int
deriving DecidableEq, Repr

/-- The canvases table, modelled as the list of its rows. -/
abbrev CanvasDb := List CanvasRec

/-- `Canvas::find_by_id` on the table model. -/
def findCanvasById (db : CanvasDb) (id : Nat) : Option CanvasRec :=
  db.find? (fun c => c.id == id)

/-- `CanvasRepository::update_canvas_state` from
    `src/infrastructure/db/repositories/canvas.rs` (lines 140-172).
    The transaction is modelled by returning the resulting table alongside the
    result: the error branches return the table unchanged (the Rust code
    rolls the transaction back), the success branch commits the updated row.
    `updater` is the `FnOnce(&mut ActiveModel)` argument, applied after the
    state column has been set. -/
def update_canvas_state (db : CanvasDb) (id : Nat) (state : CanvasState)
    (updater : CanvasRec → CanvasRec) : Except AppError CanvasRec × CanvasDb :=
  match findCanvasById db id with
  | none => (Except.error AppError.CanvasNotFound, db)
  | some canvas =>
    if canvas.state.is_valid_transition state then
      let updated := updater { canvas with state := state }
      (Except.ok updated, db.map (fun c => if c.id == id then updated else c))
    else
      (Except.error AppError.InvalidCanvasStateTransition, db)

/-- The eight transition edges enumerated by the specification (§4.1). -/
def specEdges : List (CanvasState × CanvasState) :=
  [(.draft, .publishing), (.publishing, .published), (.publishing, .draft),
   (.published, .mintPending), (.mintPending, .published),
   (.mintPending, .minting), (.minting, .minted), (.minting, .published)]

/-- C1: for every canvas present in the table and every target state,
    `update_canvas_state` succeeds exactly when (source, target) is one of the
    eight specification edges; for every other pair it fails with
    `InvalidCanvasStateTransition` and the table is left unchanged. -/
theorem update_canvas_state_spec
    (db : CanvasDb) (id : Nat) (canvas : CanvasRec) (target : CanvasState)
    (updater : CanvasRec → CanvasRec)
    (hfind : findCanvasById db id = some canvas) :
    ((update_canvas_state db id target updater).1.isOk = true ↔
      (canvas.state, target) ∈ specEdges) ∧
    ((canvas.state, target) ∉ specEdges →
      update_canvas_state db id target updater =
        (Except.error AppError.InvalidCanvasStateTransition, db)) := by
  unfold update_canvas_state
  rw [hfind]
  cases h : canvas.state <;> cases target <;>
    simp [h, CanvasState.is_valid_transition, specEdges, Except.isOk, Except.toBool]

/-- Witness for C1 at a concrete table: a draft canvas, target `publishing`
    (a specification edge, so the call succeeds). -/
theorem update_canvas_state_spec_witness :
    ((update_canvas_state
        [{ id := 1, ownerId := 7, name := "a", inviteCode := "ABCD2345",
           state := CanvasState.draft, canvasPda := none, mintAddress := none,
           totalEscrowed := 0 }] 1 CanvasState.publishing (fun c => c)).1.isOk = true ↔
      (CanvasState.draft, CanvasState.publishing) ∈ specEdges) ∧
    ((CanvasState.draft, CanvasState.publishing) ∉ specEdges →
      update_canvas_state
        [{ id := 1, ownerId := 7, name := "a", inviteCode := "ABCD2345",
           state := CanvasState.draft, canvasPda := none, mintAddress := none,
           totalEscrowed := 0 }] 1 CanvasState.publishing (fun c => c) =
        (Except.error AppError.InvalidCanvasStateTransition,
         [{ id := 1, ownerId := 7, name := "a", inviteCode := "ABCD2345",
            state := CanvasState.draft, canvasPda := none, mintAddress := none,
            totalEscrowed := 0 }])) :=
  update_canvas_state_spec
    [{ id := 1, ownerId := 7, name := "a", inviteCode := "ABCD2345",
       state := CanvasState.draft, canvasPda := none, mintAddress := none,
       totalEscrowed := 0 }] 1
    { id := 1, ownerId := 7, name := "a", inviteCode := "ABCD2345",
      state := CanvasState.draft, canvasPda := none, mintAddress := none,
      totalEscrowed := 0 }
    CanvasState.publishing (fun c => c) rfl

/-! ## Pixel packing (`src/services/canvas/mod.rs`, lines 17-49) and
    unpacking (`src/services/nft/image.rs`, lines 53-85) -/

/-- Pixel row (`pixel::Model`), the columns the embedded functions read.
    The `i16` columns are modelled by `Int`. -/
structure PixelRec where
  x : Int
  y : Int
  color : Int
  ownerId : Option Nat
  priceLamports : Int
deriving DecidableEq, Repr

/-- Rust `as usize` on an `i16` value: two's-complement wrap into `[0, 2^64)`. -/
def usizeCast (i : Int) : Nat := (i % (2 ^ 64 : Int)).toNat

/-- Rust `as u8` on an `i16` value: two's-complement wrap into `[0, 256)`. -/
def u8Cast (i : Int) : Nat := (i % (256 : Int)).toNat

/-- `DEFAULT_COLOR` from `pack_pixels_to_colors` (white). -/
def DEFAULT_COLOR : Nat := 10

/-- The row-major index `(pixel.y as usize) * (width as usize) + (pixel.x as usize)`
    computed by `pack_pixels_to_colors`; the `usize` addition and
    multiplication wrap modulo `2^64`. -/
def rowMajorIndex (p : PixelRec) (width : Nat) : Nat :=
  (usizeCast p.y * width + usizeCast p.x) % 2 ^ 64

/-- The `colors` vector of `pack_pixels_to_colors`: `vec![DEFAULT_COLOR; total]`,
    then one masked write `colors[index] = pixel.color as u8 & 0x3F` per pixel
    whose index is below `total` (later pixels overwrite earlier ones). -/
def flattenColors (pixels : List PixelRec) (width height : Nat) : List Nat :=
  let total := width * height
  pixels.foldl
    (fun colors p =>
      let index := rowMajorIndex p width
      if index < total then colors.set index (u8Cast p.color &&& 0x3F) else colors)
    (List.replicate total DEFAULT_COLOR)

/-- `colors.get(i).copied().unwrap_or(DEFAULT_COLOR)`. -/
def colorAt (colors : List Nat) (i : Nat) : Nat := (colors[i]?).getD DEFAULT_COLOR

/-- First packed byte:  `(c0 << 2) | (c1 >> 4)` on `u8` (the shift wraps mod 256). -/
def byteZero (c0 c1 : Nat) : Nat := ((c0 <<< 2) % 256) ||| (c1 >>> 4)

/-- Second packed byte: `((c1 & 0x0F) << 4) | (c2 >> 2)` on `u8`. -/
def byteOne (c1 c2 : Nat) : Nat := (((c1 &&& 0x0F) <<< 4) % 256) ||| (c2 >>> 2)

/-- Third packed byte:  `((c2 & 0x03) << 6) | c3` on `u8`. -/
def byteTwo (c2 c3 : Nat) : Nat := (((c2 &&& 0x03) <<< 6) % 256) ||| c3

/-- The three bytes the packing loop writes at `base_byte = 3 * g` for group `g`
    (it reads the four colors at `base_pixel = 4 * g`). -/
def packGroup (colors : List Nat) (g : Nat) : List Nat :=
  [byteZero (colorAt colors (g * 4)) (colorAt colors (g * 4 + 1)),
   byteOne (colorAt colors (g * 4 + 1)) (colorAt colors (g * 4 + 2)),
   byteTwo (colorAt colors (g * 4 + 2)) (colorAt colors (g * 4 + 3))]

/-- `pack_pixels_to_colors` from `src/services/canvas/mod.rs` (lines 17-49).
    The source writes group `g` into `packed[3g .. 3g+2]` of a 768-byte array
    for `g = 0, …, 255`; as each of the 768 slots is written by exactly one
    group, the array equals the concatenation of the 256 three-byte groups. -/
def pack_pixels_to_colors (pixels : List PixelRec) (width height : Nat) : List Nat :=
  let colors := flattenColors pixels width height
  (List.range 256).flatMap (fun g => packGroup colors g)

/-- Unpacked color 0: `(b0 >> 2) & 0x3F` (from `generate_png_from_colors`). -/
def unpackC0 (b0 : Nat) : Nat := (b0 >>> 2) &&& 0x3F

/-- Unpacked color 1: `((b0 & 0x03) << 4) | ((b1 >> 4) & 0x0F)`. -/
def unpackC1 (b0 b1 : Nat) : Nat := (((b0 &&& 0x03) <<< 4) % 256) ||| ((b1 >>> 4) &&& 0x0F)

/-- Unpacked color 2: `((b1 & 0x0F) << 2) | ((b2 >> 6) & 0x03)`. -/
def unpackC2 (b1 b2 : Nat) : Nat := (((b1 &&& 0x0F) <<< 2) % 256) ||| ((b2 >>> 6) &&& 0x03)

/-- Unpacked color 3: `b2 & 0x3F`. -/
def unpackC3 (b2 : Nat) : Nat := b2 &&& 0x3F

/-- The four colors group `g` contributes to `canvas_data[4g .. 4g+3]` in
    `generate_png_from_colors`.  The source only writes the group when
    `base_byte + 2 < pixel_colors.len()`; when it does not, the four slots
    keep their initial value, which is the RGB image of `DEFAULT_COLOR`
    (see `convert_color_index_to_rgb_default`). The per-slot bounds checks
    `base_pixel + i < 1024` always hold for `g < 256` and are dropped. -/
def unpackGroup (packed : List Nat) (g : Nat) : List Nat :=
  if g * 3 + 2 < packed.length then
    let b0 := (packed[g * 3]?).getD 0
    let b1 := (packed[g * 3 + 1]?).getD 0
    let b2 := (packed[g * 3 + 2]?).getD 0
    [unpackC0 b0, unpackC1 b0 b1, unpackC2 b1 b2, unpackC3 b2]
  else [DEFAULT_COLOR, DEFAULT_COLOR, DEFAULT_COLOR, DEFAULT_COLOR]

/-- The color-index content of the `canvas_data` array built by
    `generate_png_from_colors` (`src/services/nft/image.rs`, lines 53-85):
    group `g` writes its four extracted colors at `4g .. 4g+3`, so the array
    is the concatenation of the 256 four-color groups.
    `generate_png_from_colors` itself stores `convert_color_index_to_rgb`
    of each of these color indices. -/
def unpack_png_colors (packed : List Nat) : List Nat :=
  (List.range 256).flatMap (fun g => unpackGroup packed g)

/-- `convert_color_index_to_rgb` from `src/services/nft/image.rs`
    (lines 120-196): the 64-entry palette with a fallback gray. -/
def convert_color_index_to_rgb (index : Nat) : Nat × Nat × Nat :=
  match index with
  | 0 => (0x00, 0x00, 0x00)
  | 1 => (0x1a, 0x1a, 0x1a)
  | 2 => (0x33, 0x33, 0x33)
  | 3 => (0x4d, 0x4d, 0x4d)
  | 4 => (0x66, 0x66, 0x66)
  | 5 => (0x80, 0x80, 0x80)
  | 6 => (0x99, 0x99, 0x99)
  | 7 => (0xb3, 0xb3, 0xb3)
  | 8 => (0xcc, 0xcc, 0xcc)
  | 9 => (0xe6, 0xe6, 0xe6)
  | 10 => (0xff, 0xff, 0xff)
  | 11 => (0xa9, 0x38, 0x38)
  | 12 => (0xf5, 0xf5, 0xdc)
  | 13 => (0x8b, 0x00, 0x00)
  | 14 => (0xdc, 0x14, 0x3c)
  | 15 => (0xff, 0x63, 0x47)
  | 16 => (0xff, 0x45, 0x00)
  | 17 => (0xff, 0x8c, 0x00)
  | 18 => (0xff, 0xa5, 0x00)
  | 19 => (0xff, 0xd7, 0x00)
  | 20 => (0xff, 0xff, 0x00)
  | 21 => (0xad, 0xff, 0x2f)
  | 22 => (0x7f, 0xff, 0x00)
  | 23 => (0x00, 0xff, 0x00)
  | 24 => (0x32, 0xcd, 0x32)
  | 25 => (0x22, 0x8b, 0x22)
  | 26 => (0x00, 0x64, 0x00)
  | 27 => (0x00, 0x8b, 0x8b)
  | 28 => (0x20, 0xb2, 0xaa)
  | 29 => (0x00, 0xce, 0xd1)
  | 30 => (0x00, 0xff, 0xff)
  | 31 => (0x00, 0xbf, 0xff)
  | 32 => (0x1e, 0x90, 0xff)
  | 33 => (0x00, 0x00, 0xff)
  | 34 => (0x00, 0x00, 0xcd)
  | 35 => (0x00, 0x00, 0x8b)
  | 36 => (0x19, 0x19, 0x70)
  | 37 => (0x4b, 0x00, 0x82)
  | 38 => (0x8b, 0x00, 0x8b)
  | 39 => (0x94, 0x00, 0xd3)
  | 40 => (0x99, 0x32, 0xcc)
  | 41 => (0xba, 0x55, 0xd3)
  | 42 => (0xda, 0x70, 0xd6)
  | 43 => (0xff, 0x00, 0xff)
  | 44 => (0xff, 0x69, 0xb4)
  | 45 => (0xff, 0x14, 0x93)
  | 46 => (0xc7, 0x15, 0x85)
  | 47 => (0xdb, 0x70, 0x93)
  | 48 => (0x8b, 0x45, 0x13)
  | 49 => (0xa0, 0x52, 0x2d)
  | 50 => (0xd2, 0x69, 0x1e)
  | 51 => (0xcd, 0x85, 0x3f)
  | 52 => (0xde, 0xb8, 0x87)
  | 53 => (0xf5, 0xde, 0xb3)
  | 54 => (0xfa, 0xeb, 0xd7)
  | 55 => (0xff, 0xe4, 0xc4)
  | 56 => (0xff, 0xda, 0xb9)
  | 57 => (0xff, 0xe4, 0xe1)
  | 58 => (0xff, 0xf0, 0xf5)
  | 59 => (0xe6, 0xe6, 0xfa)
  | 60 => (0xd8, 0xbf, 0xd8)
  | 61 => (0xdd, 0xa0, 0xdd)
  | 62 => (0xee, 0x82, 0xee)
  | 63 => (0xff, 0xff, 0xe0)
  | _ => (0x80, 0x80, 0x80)

/-- The initial `canvas_data` entry `(255, 255, 255)` of
    `generate_png_from_colors` is the palette image of `DEFAULT_COLOR`,
    so untouched slots correspond to color index 10. -/
theorem convert_color_index_to_rgb_default :
    convert_color_index_to_rgb DEFAULT_COLOR = (255, 255, 255) := rfl

/-! ### Bit-level arithmetic of the 3-byte groups -/

theorem nat_and_3 (x : Nat) : x &&& 3 = x % 4 := by
  simpa using Nat.and_pow_two_sub_one_eq_mod x 2

theorem nat_and_15 (x : Nat) : x &&& 15 = x % 16 := by
  simpa using Nat.and_pow_two_sub_one_eq_mod x 4

theorem nat_and_63 (x : Nat) : x &&& 63 = x % 64 := by
  simpa using Nat.and_pow_two_sub_one_eq_mod x 6

theorem nat_shl_2 (x : Nat) : x <<< 2 = x * 4 := by
  rw [Nat.shiftLeft_eq]

theorem nat_shl_4 (x : Nat) : x <<< 4 = x * 16 := by
  rw [Nat.shiftLeft_eq]

theorem nat_shl_6 (x : Nat) : x <<< 6 = x * 64 := by
  rw [Nat.shiftLeft_eq]

theorem nat_shr_2 (x : Nat) : x >>> 2 = x / 4 := by
  rw [Nat.shiftRight_eq_div_pow]

theorem nat_shr_4 (x : Nat) : x >>> 4 = x / 16 := by
  rw [Nat.shiftRight_eq_div_pow]

theorem nat_shr_6 (x : Nat) : x >>> 6 = x / 64 := by
  rw [Nat.shiftRight_eq_div_pow]

theorem lor_mul_4 : ∀ a < 64, ∀ b < 4, (a * 4) ||| b = a * 4 + b := by decide

theorem lor_mul_16 : ∀ a < 16, ∀ b < 16, (a * 16) ||| b = a * 16 + b := by decide

theorem lor_mul_64 : ∀ a < 4, ∀ b < 64, (a * 64) ||| b = a * 64 + b := by decide

theorem byteZero_eq (c0 c1 : Nat) (h0 : c0 < 64) (h1 : c1 < 64) :
    byteZero c0 c1 = c0 * 4 + c1 / 16 := by
  unfold byteZero
  rw [nat_shl_2, nat_shr_4, Nat.mod_eq_of_lt (by omega)]
  exact lor_mul_4 c0 h0 (c1 / 16) (by omega)

theorem byteOne_eq (c1 c2 : Nat) (h2 : c2 < 64) :
    byteOne c1 c2 = (c1 % 16) * 16 + c2 / 4 := by
  unfold byteOne
  rw [nat_and_15, nat_shl_4, nat_shr_2, Nat.mod_eq_of_lt (by omega)]
  exact lor_mul_16 (c1 % 16) (by omega) (c2 / 4) (by omega)

theorem byteTwo_eq (c2 c3 : Nat) (h3 : c3 < 64) :
    byteTwo c2 c3 = (c2 % 4) * 64 + c3 := by
  unfold byteTwo
  rw [nat_and_3, nat_shl_6, Nat.mod_eq_of_lt (by omega)]
  exact lor_mul_64 (c2 % 4) (by omega) c3 h3

theorem unpackC0_eq (b0 : Nat) : unpackC0 b0 = b0 / 4 % 64 := by
  unfold unpackC0
  rw [nat_shr_2, nat_and_63]

theorem unpackC1_eq (b0 b1 : Nat) : unpackC1 b0 b1 = (b0 % 4) * 16 + b1 / 16 % 16 := by
  unfold unpackC1
  rw [nat_and_3, nat_shl_4, nat_shr_4, nat_and_15, Nat.mod_eq_of_lt (by omega)]
  exact lor_mul_16 (b0 % 4) (by omega) (b1 / 16 % 16) (by omega)

theorem unpackC2_eq (b1 b2 : Nat) : unpackC2 b1 b2 = (b1 % 16) * 4 + b2 / 64 % 4 := by
  unfold unpackC2
  rw [nat_and_15, nat_shl_2, nat_shr_6, nat_and_3, Nat.mod_eq_of_lt (by omega)]
  exact lor_mul_4 (b1 % 16) (by omega) (b2 / 64 % 4) (by omega)

theorem unpackC3_eq (b2 : Nat) : unpackC3 b2 = b2 % 64 := nat_and_63 b2

/-- The 6-bit group encoding round-trips: the four extraction formulas of
    `generate_png_from_colors` recover the four colors packed by
    `pack_pixels_to_colors`. -/
theorem unpack_pack_group (c0 c1 c2 c3 : Nat)
    (h0 : c0 < 64) (h1 : c1 < 64) (h2 : c2 < 64) (h3 : c3 < 64) :
    unpackC0 (byteZero c0 c1) = c0 ∧
    unpackC1 (byteZero c0 c1) (byteOne c1 c2) = c1 ∧
    unpackC2 (byteOne c1 c2) (byteTwo c2 c3) = c2 ∧
    unpackC3 (byteTwo c2 c3) = c3 := by
  rw [unpackC0_eq, unpackC1_eq, unpackC2_eq, unpackC3_eq,
    byteZero_eq c0 c1 h0 h1, byteOne_eq c1 c2 h2, byteTwo_eq c2 c3 h3]
  refine ⟨by omega, by omega, by omega, by omega⟩

/-! ### Indexing the concatenated groups -/

theorem flatMap_range_length (m : Nat) (f : Nat → List Nat)
    (hf : ∀ g, (f g).length = m) (n : Nat) :
    ((List.range n).flatMap f).length = m * n := by
  induction n with
  | zero => simp
  | succ n ih =>
    rw [List.range_succ, List.flatMap_append, List.length_append, ih,
      List.flatMap_singleton, hf, Nat.mul_succ]

theorem flatMap_range_getElem? (m : Nat) (f : Nat → List Nat)
    (hf : ∀ g, (f g).length = m) (n g k : Nat) (hg : g < n) (hk : k < m) :
    ((List.range n).flatMap f)[m * g + k]? = (f g)[k]? := by
  induction n with
  | zero => omega
  | succ n ih =>
    rw [List.range_succ, List.flatMap_append, List.flatMap_singleton]
    rcases Nat.lt_or_ge g n with h | h
    · rw [List.getElem?_append_left, ih h]
      rw [flatMap_range_length m f hf n]
      calc m * g + k < m * g + m := by omega
        _ = m * (g + 1) := (Nat.mul_succ m g).symm
        _ ≤ m * n := Nat.mul_le_mul_left m h
    · have hgn : g = n := by omega
      subst hgn
      rw [List.getElem?_append_right (by rw [flatMap_range_length m f hf g]; omega)]
      rw [flatMap_range_length m f hf g]
      congr 1
      omega

/-! ### The flattened color vector -/

theorem foldl_set_length (l : List PixelRec) (width total : Nat) (cs : List Nat) :
    (l.foldl (fun colors p =>
        let index := rowMajorIndex p width
        if index < total then colors.set index (u8Cast p.color &&& 0x3F) else colors)
      cs).length = cs.length := by
  induction l generalizing cs with
  | nil => rfl
  | cons p l ih =>
    rw [List.foldl_cons, ih]
    dsimp only
    split <;> simp [List.length_set]

theorem flattenColors_length (pixels : List PixelRec) (width height : Nat) :
    (flattenColors pixels width height).length = width * height := by
  unfold flattenColors
  rw [foldl_set_length, List.length_replicate]

/-- The color the packing assigns to row-major position `i`: the 6-bit masked
    color of the last listed pixel whose (wrapped) row-major index is `i`, or
    `DEFAULT_COLOR` when no pixel covers `i`. -/
def specColorAt (pixels : List PixelRec) (width : Nat) (i : Nat) : Nat :=
  match pixels.reverse.find? (fun p => rowMajorIndex p width == i) with
  | some p => u8Cast p.color &&& 0x3F
  | none => DEFAULT_COLOR

theorem specColorAt_lt (pixels : List PixelRec) (width i : Nat) :
    specColorAt pixels width i < 64 := by
  unfold specColorAt
  cases pixels.reverse.find? (fun p => rowMajorIndex p width == i) with
  | none => decide
  | some p => dsimp only; rw [nat_and_63]; omega

theorem flattenColors_getElem? (pixels : List PixelRec) (width height i : Nat)
    (hi : i < width * height) :
    (flattenColors pixels width height)[i]? = some (specColorAt pixels width i) := by
  induction pixels using List.reverseRecOn with
  | nil => simp [flattenColors, specColorAt, hi]
  | append_singleton l p ih =>
    have hstep : flattenColors (l ++ [p]) width height =
        (if rowMajorIndex p width < width * height then
          (flattenColors l width height).set (rowMajorIndex p width)
            (u8Cast p.color &&& 0x3F)
        else flattenColors l width height) := by
      unfold flattenColors
      rw [List.foldl_append]
      rfl
    have hspec : specColorAt (l ++ [p]) width i =
        (if rowMajorIndex p width == i then u8Cast p.color &&& 0x3F
         else specColorAt l width i) := by
      unfold specColorAt
      rw [List.reverse_append, List.reverse_singleton, List.singleton_append,
        List.find?_cons]
      by_cases hp : (rowMajorIndex p width == i) = true
      · rw [if_pos hp, hp]
      · have hfalse : (rowMajorIndex p width == i) = false := by simpa using hp
        rw [hfalse]
        simp
    rw [hstep, hspec]
    by_cases hp : (rowMajorIndex p width == i) = true
    · have hidx : rowMajorIndex p width = i := by simpa using hp
      rw [if_pos (by omega), if_pos hp, hidx]
      exact List.getElem?_set_eq_of_lt _ (by rw [flattenColors_length]; omega)
    · have hidx : rowMajorIndex p width ≠ i := by simpa using hp
      rw [if_neg hp]
      split
      · rw [List.getElem?_set_ne hidx]
        exact ih
      · exact ih

theorem colorAt_flattenColors (pixels : List PixelRec) (width height i : Nat)
    (hi : i < width * height) :
    colorAt (flattenColors pixels width height) i = specColorAt pixels width i := by
  unfold colorAt
  rw [flattenColors_getElem? pixels width height i hi]
  rfl

theorem pack_pixels_getElem? (pixels : List PixelRec) (g k : Nat)
    (hg : g < 256) (hk : k < 3) :
    (pack_pixels_to_colors pixels 32 32)[3 * g + k]? =
      (packGroup (flattenColors pixels 32 32) g)[k]? := by
  unfold pack_pixels_to_colors
  refine flatMap_range_getElem? 3 _ ?_ 256 g k hg hk
  exact fun g => rfl

theorem packGroup_entries (colors : List Nat) (g : Nat) :
    (packGroup colors g)[0]? =
      some (byteZero (colorAt colors (g * 4)) (colorAt colors (g * 4 + 1))) ∧
    (packGroup colors g)[1]? =
      some (byteOne (colorAt colors (g * 4 + 1)) (colorAt colors (g * 4 + 2))) ∧
    (packGroup colors g)[2]? =
      some (byteTwo (colorAt colors (g * 4 + 2)) (colorAt colors (g * 4 + 3))) :=
  ⟨rfl, rfl, rfl⟩

theorem byteZero_nowrap (c0 c1 : Nat) (h0 : c0 < 64) :
    byteZero c0 c1 = (c0 <<< 2) ||| (c1 >>> 4) := by
  unfold byteZero
  have h : c0 <<< 2 < 256 := by rw [nat_shl_2]; omega
  rw [Nat.mod_eq_of_lt h]

theorem byteOne_nowrap (c1 c2 : Nat) :
    byteOne c1 c2 = ((c1 &&& 0x0F) <<< 4) ||| (c2 >>> 2) := by
  unfold byteOne
  have h : (c1 &&& 0x0F) <<< 4 < 256 := by rw [nat_and_15, nat_shl_4]; omega
  rw [Nat.mod_eq_of_lt h]

theorem byteTwo_nowrap (c2 c3 : Nat) :
    byteTwo c2 c3 = ((c2 &&& 0x03) <<< 6) ||| c3 := by
  unfold byteTwo
  have h : (c2 &&& 0x03) <<< 6 < 256 := by rw [nat_and_3, nat_shl_6]; omega
  rw [Nat.mod_eq_of_lt h]

/-- C2: for every pixel list with in-bounds coordinates on a 32×32 canvas,
    `pack_pixels_to_colors` returns exactly 768 bytes, and group `g`
    (`0 ≤ g < 256`) encodes the 6-bit colors of the four pixels at row-major
    indices `4g .. 4g+3` (missing pixels defaulting to color 10, later
    duplicates overriding earlier ones) as `byte0 = (c0<<2)|(c1>>4)`,
    `byte1 = ((c1&0x0F)<<4)|(c2>>2)`, `byte2 = ((c2&0x03)<<6)|c3`. -/
theorem pack_pixels_to_colors_spec (pixels : List PixelRec)
    (hb : ∀ p ∈ pixels, 0 ≤ p.x ∧ p.x < 32 ∧ 0 ≤ p.y ∧ p.y < 32) :
    (pack_pixels_to_colors pixels 32 32).length = 768 ∧
    ∀ g < 256,
      (pack_pixels_to_colors pixels 32 32)[3 * g]? =
        some ((specColorAt pixels 32 (g * 4) <<< 2) |||
          (specColorAt pixels 32 (g * 4 + 1) >>> 4)) ∧
      (pack_pixels_to_colors pixels 32 32)[3 * g + 1]? =
        some (((specColorAt pixels 32 (g * 4 + 1) &&& 0x0F) <<< 4) |||
          (specColorAt pixels 32 (g * 4 + 2) >>> 2)) ∧
      (pack_pixels_to_colors pixels 32 32)[3 * g + 2]? =
        some (((specColorAt pixels 32 (g * 4 + 2) &&& 0x03) <<< 6) |||
          specColorAt pixels 32 (g * 4 + 3)) := by
  refine ⟨?_, ?_⟩
  · unfold pack_pixels_to_colors
    have hlen := flatMap_range_length 3
      (fun g => packGroup (flattenColors pixels 32 32) g) (fun g => rfl) 256
    rw [hlen]

  · intro g hg
    have h0 := pack_pixels_getElem? pixels g 0 hg (by omega)
    have h1 := pack_pixels_getElem? pixels g 1 hg (by omega)
    have h2 := pack_pixels_getElem? pixels g 2 hg (by omega)
    have hca0 := colorAt_flattenColors pixels 32 32 (g * 4) (by omega)
    have hca1 := colorAt_flattenColors pixels 32 32 (g * 4 + 1) (by omega)
    have hca2 := colorAt_flattenColors pixels 32 32 (g * 4 + 2) (by omega)
    have hca3 := colorAt_flattenColors pixels 32 32 (g * 4 + 3) (by omega)
    refine ⟨?_, ?_, ?_⟩
    · rw [Nat.add_zero] at h0
      rw [h0, (packGroup_entries _ g).1, hca0, hca1,
        byteZero_nowrap _ _ (specColorAt_lt pixels 32 (g * 4))]
    · rw [h1, (packGroup_entries _ g).2.1, hca1, hca2, byteOne_nowrap]
    · rw [h2, (packGroup_entries _ g).2.2, hca2, hca3, byteTwo_nowrap]

/-- Witness for C2 at the one-pixel list `[(x = 1, y = 0, color = 5)]`. -/
theorem pack_pixels_to_colors_spec_witness :
    (pack_pixels_to_colors [⟨1, 0, 5, none, 0⟩] 32 32).length = 768 ∧
    ∀ g < 256,
      (pack_pixels_to_colors [⟨1, 0, 5, none, 0⟩] 32 32)[3 * g]? =
        some ((specColorAt [⟨1, 0, 5, none, 0⟩] 32 (g * 4) <<< 2) |||
          (specColorAt [⟨1, 0, 5, none, 0⟩] 32 (g * 4 + 1) >>> 4)) ∧
      (pack_pixels_to_colors [⟨1, 0, 5, none, 0⟩] 32 32)[3 * g + 1]? =
        some (((specColorAt [⟨1, 0, 5, none, 0⟩] 32 (g * 4 + 1) &&& 0x0F) <<< 4) |||
          (specColorAt [⟨1, 0, 5, none, 0⟩] 32 (g * 4 + 2) >>> 2)) ∧
      (pack_pixels_to_colors [⟨1, 0, 5, none, 0⟩] 32 32)[3 * g + 2]? =
        some (((specColorAt [⟨1, 0, 5, none, 0⟩] 32 (g * 4 + 2) &&& 0x03) <<< 6) |||
          specColorAt [⟨1, 0, 5, none, 0⟩] 32 (g * 4 + 3)) :=
  pack_pixels_to_colors_spec [⟨1, 0, 5, none, 0⟩] (by decide)

/-! ### Round trip: unpacking the packed buffer -/

theorem pack_pixels_length (pixels : List PixelRec) :
    (pack_pixels_to_colors pixels 32 32).length = 768 := by
  unfold pack_pixels_to_colors
  have hlen := flatMap_range_length 3
    (fun g => packGroup (flattenColors pixels 32 32) g) (fun g => rfl) 256
  rw [hlen]

/-- The in-bounds row-major index of the specification: `y * 32 + x`. -/
def specIndex (p : PixelRec) : Nat := p.y.toNat * 32 + p.x.toNat

theorem rowMajorIndex_inBounds (p : PixelRec)
    (hx0 : 0 ≤ p.x) (hx : p.x < 32) (hy0 : 0 ≤ p.y) (hy : p.y < 32) :
    rowMajorIndex p 32 = specIndex p ∧ specIndex p < 1024 := by
  have h2 : (2 : Int) ^ 64 = 18446744073709551616 := by norm_num
  have h2n : (2 : Nat) ^ 64 = 18446744073709551616 := by norm_num
  unfold rowMajorIndex usizeCast specIndex
  rw [h2, h2n]
  omega

theorem unpackGroup_entries (packed : List Nat) (g : Nat)
    (h : g * 3 + 2 < packed.length) :
    unpackGroup packed g =
      [unpackC0 ((packed[g * 3]?).getD 0),
       unpackC1 ((packed[g * 3]?).getD 0) ((packed[g * 3 + 1]?).getD 0),
       unpackC2 ((packed[g * 3 + 1]?).getD 0) ((packed[g * 3 + 2]?).getD 0),
       unpackC3 ((packed[g * 3 + 2]?).getD 0)] := by
  unfold unpackGroup
  rw [if_pos h]

theorem unpack_pack_getElem? (pixels : List PixelRec) (i : Nat) (hi : i < 1024) :
    (unpack_png_colors (pack_pixels_to_colors pixels 32 32))[i]? =
      some (specColorAt pixels 32 i) := by
  have hlen := pack_pixels_length pixels
  have hg : i / 4 < 256 := by omega
  have hf4 : ∀ g, (unpackGroup (pack_pixels_to_colors pixels 32 32) g).length = 4 := by
    intro g
    unfold unpackGroup
    split <;> rfl
  have hi4 : 4 * (i / 4) + i % 4 = i := by omega
  unfold unpack_png_colors
  rw [← hi4,
    flatMap_range_getElem? 4 (fun g => unpackGroup (pack_pixels_to_colors pixels 32 32) g)
      hf4 256 (i / 4) (i % 4) hg (by omega),
    unpackGroup_entries _ (i / 4) (by rw [hlen]; omega)]
  have e0 : (i / 4) * 3 = 3 * (i / 4) := by omega
  rw [e0]
  have hb0 := pack_pixels_getElem? pixels (i / 4) 0 hg (by omega)
  rw [Nat.add_zero] at hb0
  rw [hb0, pack_pixels_getElem? pixels (i / 4) 1 hg (by omega),
    pack_pixels_getElem? pixels (i / 4) 2 hg (by omega),
    (packGroup_entries _ (i / 4)).1, (packGroup_entries _ (i / 4)).2.1,
    (packGroup_entries _ (i / 4)).2.2]
  simp only [Option.getD_some]
  rw [colorAt_flattenColors pixels 32 32 ((i / 4) * 4) (by omega),
    colorAt_flattenColors pixels 32 32 ((i / 4) * 4 + 1) (by omega),
    colorAt_flattenColors pixels 32 32 ((i / 4) * 4 + 2) (by omega),
    colorAt_flattenColors pixels 32 32 ((i / 4) * 4 + 3) (by omega)]
  have hrt := unpack_pack_group
    (specColorAt pixels 32 ((i / 4) * 4)) (specColorAt pixels 32 ((i / 4) * 4 + 1))
    (specColorAt pixels 32 ((i / 4) * 4 + 2)) (specColorAt pixels 32 ((i / 4) * 4 + 3))
    (specColorAt_lt _ _ _) (specColorAt_lt _ _ _) (specColorAt_lt _ _ _)
    (specColorAt_lt _ _ _)
  have hr : i % 4 = 0 ∨ i % 4 = 1 ∨ i % 4 = 2 ∨ i % 4 = 3 := by omega
  rcases hr with h | h | h | h <;> rw [h] <;>
    simp only [List.getElem?_cons_zero, List.getElem?_cons_succ] <;>
    rw [show (i / 4) * 4 = 4 * (i / 4) by omega] at * <;>
    simp only [hrt.1, hrt.2.1, hrt.2.2.1, hrt.2.2.2] <;>
    congr 1 <;> omega

theorem mask_of_small_color (c : Int) (h0 : 0 ≤ c) (h1 : c < 64) :
    u8Cast c &&& 0x3F = c.toNat := by
  unfold u8Cast
  rw [nat_and_63]
  omega

theorem specColorAt_of_mem (pixels : List PixelRec) (p : PixelRec) (hp : p ∈ pixels)
    (hb : ∀ q ∈ pixels, 0 ≤ q.x ∧ q.x < 32 ∧ 0 ≤ q.y ∧ q.y < 32)
    (hnodup : (pixels.map specIndex).Nodup) :
    specColorAt pixels 32 (specIndex p) = u8Cast p.color &&& 0x3F := by
  unfold specColorAt
  have hbp := hb p hp
  have hidxp := rowMajorIndex_inBounds p hbp.1 hbp.2.1 hbp.2.2.1 hbp.2.2.2
  cases hfind : pixels.reverse.find? (fun q => rowMajorIndex q 32 == specIndex p) with
  | none =>
    exfalso
    have := List.find?_eq_none.mp hfind p (List.mem_reverse.mpr hp)
    simp [hidxp.1] at this
  | some q =>
    have hpred := List.find?_some hfind
    have hqmem : q ∈ pixels := List.mem_reverse.mp (List.mem_of_find?_eq_some hfind)
    have hbq := hb q hqmem
    have hidxq := rowMajorIndex_inBounds q hbq.1 hbq.2.1 hbq.2.2.1 hbq.2.2.2
    have heq : specIndex q = specIndex p := by
      have : rowMajorIndex q 32 = specIndex p := by simpa using hpred
      omega
    have hqp : q = p := List.inj_on_of_nodup_map hnodup hqmem hp heq
    rw [hqp]

theorem specColorAt_of_not_mem (pixels : List PixelRec) (i : Nat)
    (hb : ∀ q ∈ pixels, 0 ≤ q.x ∧ q.x < 32 ∧ 0 ≤ q.y ∧ q.y < 32)
    (hnone : ∀ q ∈ pixels, specIndex q ≠ i) :
    specColorAt pixels 32 i = DEFAULT_COLOR := by
  unfold specColorAt
  have hfind : pixels.reverse.find? (fun q => rowMajorIndex q 32 == i) = none := by
    rw [List.find?_eq_none]
    intro q hq
    have hqmem : q ∈ pixels := List.mem_reverse.mp hq
    have hbq := hb q hqmem
    have hidxq := rowMajorIndex_inBounds q hbq.1 hbq.2.1 hbq.2.2.1 hbq.2.2.2
    have := hnone q hqmem
    simp [hidxq.1, this]
  rw [hfind]

/-- C3: for every pixel list with in-bounds coordinates, colors in `[0, 64)`
    and pairwise-distinct positions, unpacking the 768-byte output of
    `pack_pixels_to_colors` with the 6-bit extraction used by
    `generate_png_from_colors` recovers each pixel's color at its row-major
    index, and every position not covered by an input pixel unpacks to the
    default color 10. -/
theorem unpack_pack_roundtrip (pixels : List PixelRec)
    (hb : ∀ p ∈ pixels, 0 ≤ p.x ∧ p.x < 32 ∧ 0 ≤ p.y ∧ p.y < 32)
    (hc : ∀ p ∈ pixels, 0 ≤ p.color ∧ p.color < 64)
    (hnodup : (pixels.map specIndex).Nodup) :
    (∀ p ∈ pixels,
      (unpack_png_colors (pack_pixels_to_colors pixels 32 32))[specIndex p]? =
        some p.color.toNat) ∧
    (∀ i < 1024, (∀ p ∈ pixels, specIndex p ≠ i) →
      (unpack_png_colors (pack_pixels_to_colors pixels 32 32))[i]? =
        some DEFAULT_COLOR) := by
  constructor
  · intro p hp
    have hbp := hb p hp
    have hcp := hc p hp
    have hidx := rowMajorIndex_inBounds p hbp.1 hbp.2.1 hbp.2.2.1 hbp.2.2.2
    rw [unpack_pack_getElem? pixels (specIndex p) hidx.2,
      specColorAt_of_mem pixels p hp hb hnodup,
      mask_of_small_color p.color hcp.1 hcp.2]
  · intro i hi hnone
    rw [unpack_pack_getElem? pixels i hi,
      specColorAt_of_not_mem pixels i hb hnone]

/-- Witness for C3 at the two-pixel list `[(1, 0, 5), (2, 3, 63)]`. -/
theorem unpack_pack_roundtrip_witness :
    (∀ p ∈ [(⟨1, 0, 5, none, 0⟩ : PixelRec), ⟨2, 3, 63, none, 0⟩],
      (unpack_png_colors
        (pack_pixels_to_colors [⟨1, 0, 5, none, 0⟩, ⟨2, 3, 63, none, 0⟩] 32 32))[specIndex p]? =
        some p.color.toNat) ∧
    (∀ i < 1024,
      (∀ p ∈ [(⟨1, 0, 5, none, 0⟩ : PixelRec), ⟨2, 3, 63, none, 0⟩], specIndex p ≠ i) →
      (unpack_png_colors
        (pack_pixels_to_colors [⟨1, 0, 5, none, 0⟩, ⟨2, 3, 63, none, 0⟩] 32 32))[i]? =
        some DEFAULT_COLOR) :=
  unpack_pack_roundtrip [⟨1, 0, 5, none, 0⟩, ⟨2, 3, 63, none, 0⟩]
    (by decide) (by decide) (by decide)

/-! ## Rate limiter (`src/middleware/rate_limit.rs`, lines 29-83) -/

/-- `SlidingWindowConfig` (the `key_prefix` field only contributes to the
    Redis key strings and is not modelled). -/
structure SlidingWindowConfig where
  max_requests_per_window : Nat
  window_duration_secs : Nat
deriving DecidableEq, Repr

/-- The observable outcome of `RateLimiter::check`: the returned
    `(allowed, remaining, reset_at)` triple, plus the write to the
    current-window counter (value and TTL in seconds) when one happens. -/
structure RateCheckResult where
  allowed : Bool
  remaining : Nat
  reset_at : Nat
  new_current_count : Option (Nat × Nat)
deriving DecidableEq, Repr

/-- The weighted count
    `(previous_count as f64 * previous_weight + current_count as f64).ceil() as u32`
    with `previous_weight = 1.0 - seconds_into_current / window_secs`,
    modelled in exact rational arithmetic. -/
def weightedCount (p c elapsed W : Nat) : Nat :=
  Nat.ceil ((p : ℚ) * (1 - (elapsed : ℚ) / (W : ℚ)) + (c : ℚ))

/-- `RateLimiter::check`.  `current_count` and `previous_count` are the two
    window counters read from the remote KV (`None` for a missing key,
    `unwrap_or(0)` in the source); `now` is the Unix timestamp in seconds. -/
def rateLimiterCheck (cfg : SlidingWindowConfig) (now : Nat)
    (current_count previous_count : Option Nat) : RateCheckResult :=
  let window_secs := cfg.window_duration_secs
  let current_window := now / window_secs
  let c := current_count.getD 0
  let p := previous_count.getD 0
  let seconds_into_current := now % window_secs
  let weighted_count := weightedCount p c seconds_into_current window_secs
  let reset_at := (current_window + 1) * window_secs
  if weighted_count ≥ cfg.max_requests_per_window then
    { allowed := false, remaining := 0, reset_at := reset_at,
      new_current_count := none }
  else
    { allowed := true,
      remaining := cfg.max_requests_per_window - (weighted_count + 1),
      reset_at := reset_at,
      new_current_count := some (c + 1, window_secs * 2) }

theorem nat_ceil_div_eq (a W : Nat) (hW : 0 < W) :
    ⌈(a : ℚ) / (W : ℚ)⌉₊ = (a + W - 1) / W := by
  have hWQ : (0 : ℚ) < (W : ℚ) := by exact_mod_cast hW
  have hdiv_mul : (a + W - 1) / W * W ≤ a + W - 1 := Nat.div_mul_le_self _ _
  have hlow : a ≤ (a + W - 1) / W * W := by
    rcases Nat.eq_zero_or_pos a with ha | ha
    · simp [ha]
    · by_contra hcon
      push_neg at hcon
      have hle : ((a + W - 1) / W + 1) * W ≤ a + W - 1 := by
        rw [Nat.succ_mul]
        revert hcon
        generalize (a + W - 1) / W * W = u
        intro hcon
        omega
      have hcontra := (Nat.le_div_iff_mul_le hW).mpr hle
      revert hcontra
      generalize (a + W - 1) / W = d
      intro hcontra
      omega
  apply le_antisymm
  · rw [Nat.ceil_le, div_le_iff₀ hWQ]
    calc (a : ℚ) ≤ ((a + W - 1) / W * W : Nat) := by exact_mod_cast hlow
      _ = (((a + W - 1) / W : Nat) : ℚ) * (W : ℚ) := by push_cast; ring
  · rcases Nat.eq_zero_or_pos ((a + W - 1) / W) with hd | hd
    · rw [hd]; exact Nat.zero_le _
    · have ha : 0 < a := by
        by_contra hcona
        push_neg at hcona
        have ha0 : a = 0 := by omega
        subst ha0
        rw [Nat.zero_add, Nat.div_eq_of_lt (by omega)] at hd
        omega
      apply Nat.le_of_pred_lt
      rw [Nat.pred_eq_sub_one, Nat.lt_ceil, lt_div_iff₀ hWQ]
      have hnat : ((a + W - 1) / W - 1) * W < a := by
        rw [Nat.sub_mul, one_mul]
        revert hdiv_mul
        generalize (a + W - 1) / W * W = u
        intro hdm
        omega
      exact_mod_cast hnat

theorem weightedCount_eq (p c e W : Nat) (hW : 0 < W) (he : e ≤ W) :
    weightedCount p c e W = c + (p * (W - e) + W - 1) / W := by
  unfold weightedCount
  have h1 : (p : ℚ) * (1 - (e : ℚ) / (W : ℚ)) = ((p * (W - e) : Nat) : ℚ) / (W : ℚ) := by
    push_cast [Nat.cast_sub he]
    field_simp
  rw [h1, Nat.ceil_add_nat (by positivity), nat_ceil_div_eq _ W hW]
  omega

/-- C8: `RateLimiter::check` with window `W`, cap `C`, previous-window count
    `p` and current-window count `c` (missing keys counting as 0), at time
    `now` with `elapsed = now mod W` and `weight = 1 - elapsed/W`: the request
    is rejected iff `ceil(p·weight + c) ≥ C`, with reset-at `(current+1)·W`;
    otherwise the current-window counter is set to `c + 1` with TTL `2·W` and
    the returned remaining equals `C - (ceil(p·weight + c) + 1)`.  The last
    conjunct gives the integer closed form of the weighted count. -/
theorem rate_limiter_check_spec (C W now : Nat) (cc pc : Option Nat) (hW : 0 < W) :
    ((rateLimiterCheck ⟨C, W⟩ now cc pc).allowed = false ↔
      C ≤ Nat.ceil (((pc.getD 0 : Nat) : ℚ) *
        (1 - ((now % W : Nat) : ℚ) / (W : ℚ)) + ((cc.getD 0 : Nat) : ℚ))) ∧
    (rateLimiterCheck ⟨C, W⟩ now cc pc).reset_at = (now / W + 1) * W ∧
    ((rateLimiterCheck ⟨C, W⟩ now cc pc).allowed = true →
      (rateLimiterCheck ⟨C, W⟩ now cc pc).new_current_count =
        some (cc.getD 0 + 1, W * 2) ∧
      (rateLimiterCheck ⟨C, W⟩ now cc pc).remaining =
        C - (Nat.ceil (((pc.getD 0 : Nat) : ℚ) *
          (1 - ((now % W : Nat) : ℚ) / (W : ℚ)) + ((cc.getD 0 : Nat) : ℚ)) + 1)) ∧
    ((rateLimiterCheck ⟨C, W⟩ now cc pc).allowed = false →
      (rateLimiterCheck ⟨C, W⟩ now cc pc).new_current_count = none) ∧
    Nat.ceil (((pc.getD 0 : Nat) : ℚ) *
        (1 - ((now % W : Nat) : ℚ) / (W : ℚ)) + ((cc.getD 0 : Nat) : ℚ)) =
      cc.getD 0 + (pc.getD 0 * (W - now % W) + W - 1) / W := by
  have hweq := weightedCount_eq (pc.getD 0) (cc.getD 0) (now % W) W hW
    (Nat.le_of_lt (Nat.mod_lt now hW))
  have hceil : weightedCount (pc.getD 0) (cc.getD 0) (now % W) W =
      Nat.ceil (((pc.getD 0 : Nat) : ℚ) * (1 - ((now % W : Nat) : ℚ) / (W : ℚ)) +
        ((cc.getD 0 : Nat) : ℚ)) := rfl
  rw [← hceil]
  unfold rateLimiterCheck
  dsimp only
  by_cases hcond : C ≤ weightedCount (pc.getD 0) (cc.getD 0) (now % W) W
  · rw [if_pos hcond]
    exact ⟨by simp [hcond], rfl, by simp, fun _ => rfl, hceil.trans hweq⟩
  · rw [if_neg hcond]
    exact ⟨by simp [hcond], rfl, fun _ => ⟨rfl, rfl⟩, by simp, hceil.trans hweq⟩

/-- Witness for C8 at `C = 5`, `W = 60`, `now = 90`, current count 2,
    previous count 3. -/
theorem rate_limiter_check_spec_witness :
    (((rateLimiterCheck ⟨5, 60⟩ 90 (some 2) (some 3)).allowed = false ↔
      5 ≤ Nat.ceil ((((some 3 : Option Nat).getD 0 : Nat) : ℚ) *
        (1 - ((90 % 60 : Nat) : ℚ) / (60 : ℚ)) + (((some 2 : Option Nat).getD 0 : Nat) : ℚ))) ∧
    (rateLimiterCheck ⟨5, 60⟩ 90 (some 2) (some 3)).reset_at = (90 / 60 + 1) * 60 ∧
    ((rateLimiterCheck ⟨5, 60⟩ 90 (some 2) (some 3)).allowed = true →
      (rateLimiterCheck ⟨5, 60⟩ 90 (some 2) (some 3)).new_current_count =
        some ((some 2 : Option Nat).getD 0 + 1, 60 * 2) ∧
      (rateLimiterCheck ⟨5, 60⟩ 90 (some 2) (some 3)).remaining =
        5 - (Nat.ceil ((((some 3 : Option Nat).getD 0 : Nat) : ℚ) *
          (1 - ((90 % 60 : Nat) : ℚ) / (60 : ℚ)) +
          (((some 2 : Option Nat).getD 0 : Nat) : ℚ)) + 1)) ∧
    ((rateLimiterCheck ⟨5, 60⟩ 90 (some 2) (some 3)).allowed = false →
      (rateLimiterCheck ⟨5, 60⟩ 90 (some 2) (some 3)).new_current_count = none) ∧
    Nat.ceil ((((some 3 : Option Nat).getD 0 : Nat) : ℚ) *
        (1 - ((90 % 60 : Nat) : ℚ) / (60 : ℚ)) + (((some 2 : Option Nat).getD 0 : Nat) : ℚ)) =
      (some 2 : Option Nat).getD 0 + ((some 3 : Option Nat).getD 0 * (60 - 90 % 60) + 60 - 1) / 60) :=
  rate_limiter_check_spec 5 60 90 (some 2) (some 3) (by decide)

/-! ## NFT metadata endpoint (`src/services/nft/mod.rs`, lines 276-332) -/

/-- User row (`user::Model`), the columns used here. -/
structure UserRec where
  id : Nat
  wallet_address : String
deriving DecidableEq, Repr

/-- `CreatorOutput` from `src/services/nft/types.rs`. -/
structure CreatorOutput where
  address : String
  share : Nat
deriving DecidableEq, Repr

/-- `Attribute` from `src/services/nft/types.rs`. -/
structure Attribute where
  trait_type : String
  value : String
deriving DecidableEq, Repr

/-- `ImageFile` from `src/services/nft/types.rs`. -/
structure ImageFile where
  uri : String
  file_type : String
deriving DecidableEq, Repr

/-- `Properties` from `src/services/nft/types.rs`. -/
structure Properties where
  files : List ImageFile
  category : String
  creators : List CreatorOutput
deriving DecidableEq, Repr

/-- `NftMetadata` from `src/services/nft/types.rs`. -/
structure NftMetadata where
  name : String
  symbol : String
  description : String
  image : String
  seller_fee_basis_points : Nat
  attributes : List Attribute
  properties : Properties
deriving DecidableEq, Repr

/-- `get_nft_metadata` from `src/services/nft/mod.rs` (lines 276-332).
    `findUserById` models `UserRepository::find_user_by_id`; `pixels` is the
    canvas's pixel rows; `base_url` is `config.server.server_public_url`.
    The canvas id appearing in the URL is rendered with `toString`. -/
def get_nft_metadata (canvas : CanvasRec) (findUserById : Nat → Option UserRec)
    (pixels : List PixelRec) (base_url : String) : Except AppError NftMetadata :=
  if canvas.state ≠ CanvasState.minted then
    Except.error (AppError.InvalidParams "Canvas is not minted")
  else
    match findUserById canvas.ownerId with
    | none => Except.error AppError.UserNotFound
    | some owner =>
      let claimed_count := (pixels.filter (fun p => p.ownerId.isSome)).length
      let image_url := base_url ++ "/nft/" ++ toString canvas.id ++ "/image.png"
      Except.ok
        { name := canvas.name
          symbol := "PIXEL"
          description := canvas.name ++ ": 32x32 collaborative pixel art canvas."
          image := image_url
          seller_fee_basis_points := 500
          attributes :=
            [{ trait_type := "Width", value := "32" },
             { trait_type := "Height", value := "32" },
             { trait_type := "Pixels Claimed", value := toString claimed_count }]
          properties :=
            { files := [{ uri := image_url, file_type := "image/png" }]
              category := "image"
              creators := [{ address := owner.wallet_address, share := 100 }] } }

/-- C10: for every canvas in state `Minted`, the served metadata's
    `properties.creators` is exactly the one entry consisting of the canvas
    owner's wallet address with share 100, for every pixel list whatsoever —
    the proportional split of `prepare_metadata` never reaches the served
    metadata. -/
theorem get_nft_metadata_creators (canvas : CanvasRec)
    (findUserById : Nat → Option UserRec) (pixels : List PixelRec)
    (base_url : String) (owner : UserRec)
    (hstate : canvas.state = CanvasState.minted)
    (howner : findUserById canvas.ownerId = some owner) :
    ∃ md, get_nft_metadata canvas findUserById pixels base_url = Except.ok md ∧
      md.properties.creators = [{ address := owner.wallet_address, share := 100 }] := by
  unfold get_nft_metadata
  rw [if_neg (by simp [hstate]), howner]
  exact ⟨_, rfl, rfl⟩

/-- Witness for C10: a minted canvas whose pixels carry owners and prices —
    the creators list is still the owner alone with share 100. -/
theorem get_nft_metadata_creators_witness :
    ∃ md, get_nft_metadata
        { id := 3, ownerId := 7, name := "c", inviteCode := "ZZZZ9999",
          state := CanvasState.minted, canvasPda := some "pda",
          mintAddress := some "mint", totalEscrowed := 5 }
        (fun i => if i == 7 then some { id := 7, wallet_address := "OWNERWALLET" } else none)
        [{ x := 0, y := 0, color := 1, ownerId := some 9, priceLamports := 1000000 }]
        "https://example.test" = Except.ok md ∧
      md.properties.creators = [{ address := "OWNERWALLET", share := 100 }] :=
  get_nft_metadata_creators
    { id := 3, ownerId := 7, name := "c", inviteCode := "ZZZZ9999",
      state := CanvasState.minted, canvasPda := some "pda",
      mintAddress := some "mint", totalEscrowed := 5 }
    (fun i => if i == 7 then some { id := 7, wallet_address := "OWNERWALLET" } else none)
    [{ x := 0, y := 0, color := 1, ownerId := some 9, priceLamports := 1000000 }]
    "https://example.test"
    { id := 7, wallet_address := "OWNERWALLET" }
    rfl rfl

/-! ## Creator shares in `prepare_metadata` (`src/services/nft/mod.rs`,
    lines 30-135) -/

/-- The share
    `((amount as f64 / total as f64) * remaining_share as f64).round() as u8`
    computed for a top pixel claimer when `total_sol_invested > 0`, and `0`
    otherwise.  The `f64` arithmetic is modelled over exact rationals;
    `f64::round` rounds half away from zero, which on these non-negative
    quantities is `round`.  The saturating `as u8` cast never binds: with
    `0 ≤ amount ≤ total` the rounded value lies in `[0, remaining]ⁱ ⊆ [0, 255]`. -/
def claimerShare (amount total : Int) (remaining : Nat) : Nat :=
  if 0 < total then
    (round ((amount : ℚ) / (total : ℚ) * (remaining : ℚ))).toNat
  else 0

/-- `total_sol_invested`: the sum of the (up to four) top pixel-bid totals,
    the canvas owner's own total included when the owner is among them. -/
def totalSolInvested (top : List (Nat × Int)) : Int := (top.map Prod.snd).sum

/-- The "Add top pixel claimers (excluding owner)" loop of `prepare_metadata`:
    one `(wallet, share)` entry per top pixel owner that is not the canvas
    owner, was found by the batched user lookup, and has a positive share. -/
def otherCreators (ownerId : Nat) (top : List (Nat × Int))
    (walletOf : Nat → Option String) (remaining : Nat) : List (String × Nat) :=
  (top.filter (fun q => q.1 ≠ ownerId)).filterMap (fun q =>
    match walletOf q.1 with
    | some w =>
      let share := claimerShare q.2 (totalSolInvested top) remaining
      if 0 < share then some (w, share) else none
    | none => none)

/-- The creators list of `prepare_metadata` (lines 51-121): the owner first
    with base share 100 (empty top list) or 10, then the other top claimers
    with `remaining_share = 100 - base`; if the shares do not sum to 100, the
    first (owner) entry absorbs the residual `100 - total_shares`, clamped
    below at 1 (the adjustment arithmetic is `i16` in the source, modelled by
    `Int`). -/
def prepareCreators (ownerWallet : String) (ownerId : Nat)
    (top : List (Nat × Int)) (walletOf : Nat → Option String) :
    List (String × Nat) :=
  let canvas_owner_base_share : Nat := if top.isEmpty then 100 else 10
  let remaining_share : Nat := 100 - canvas_owner_base_share
  let creators_list :=
    (ownerWallet, canvas_owner_base_share) ::
      otherCreators ownerId top walletOf remaining_share
  let total_shares : Nat := (creators_list.map Prod.snd).sum
  if total_shares ≠ 100 then
    match creators_list with
    | [] => []
    | (w, s) :: rest =>
      (w, (max ((s : Int) + (100 - (total_shares : Int))) 1).toNat) :: rest
  else creators_list

theorem claimerShare_le_q (a T : Int) (R : Nat) (h0 : 0 ≤ a) (hT : 0 < T) :
    ((claimerShare a T R : Nat) : ℚ) ≤
      (R : ℚ) * (a : ℚ) / (T : ℚ) + 1 / 2 := by
  unfold claimerShare
  rw [if_pos hT]
  have ha' : (0 : ℚ) ≤ (a : ℚ) := by exact_mod_cast h0
  have hT' : (0 : ℚ) < (T : ℚ) := by exact_mod_cast hT
  have hqnn : (0 : ℚ) ≤ (a : ℚ) / (T : ℚ) * (R : ℚ) := by positivity
  have hround : (0 : ℤ) ≤ round ((a : ℚ) / (T : ℚ) * (R : ℚ)) := by
    rw [round_eq]
    exact Int.floor_nonneg.mpr (by linarith)
  have hle := round_le_add_half ((a : ℚ) / (T : ℚ) * (R : ℚ))
  have hcast : (((round ((a : ℚ) / (T : ℚ) * (R : ℚ))).toNat : Nat) : ℚ) =
      ((round ((a : ℚ) / (T : ℚ) * (R : ℚ)) : ℤ) : ℚ) := by
    exact_mod_cast congrArg (fun z : ℤ => (z : ℚ)) (Int.toNat_of_nonneg hround)
  rw [hcast]
  calc ((round ((a : ℚ) / (T : ℚ) * (R : ℚ)) : ℤ) : ℚ)
      ≤ (a : ℚ) / (T : ℚ) * (R : ℚ) + 1 / 2 := by exact_mod_cast hle
    _ = (R : ℚ) * (a : ℚ) / (T : ℚ) + 1 / 2 := by ring

theorem sum_filterMap_share_le (l : List (Nat × Int))
    (walletOf : Nat → Option String) (T : Int) (R : Nat) :
    ((l.filterMap (fun q =>
        match walletOf q.1 with
        | some w =>
          let share := claimerShare q.2 T R
          if 0 < share then some (w, share) else none
        | none => none)).map Prod.snd).sum ≤
      (l.map (fun q => claimerShare q.2 T R)).sum := by
  induction l with
  | nil => simp
  | cons q l ih =>
    rw [List.filterMap_cons, List.map_cons, List.sum_cons]
    cases hw : walletOf q.1 with
    | none =>
      simp only [hw]
      exact le_trans ih (Nat.le_add_left _ _)
    | some w =>
      simp only [hw]
      by_cases hs : 0 < claimerShare q.2 T R
      · rw [if_pos hs]
        simp only [List.map_cons, List.sum_cons]
        exact Nat.add_le_add_left ih _
      · rw [if_neg hs]
        exact le_trans ih (Nat.le_add_left _ _)

theorem map_claimerShare_sum_le (T : Int) (R : Nat) (hT : 0 < T)
    (l : List (Nat × Int)) (hl : ∀ q ∈ l, 0 ≤ q.2) :
    (((l.map (fun q => claimerShare q.2 T R)).sum : Nat) : ℚ) ≤
      (R : ℚ) * (((l.map Prod.snd).sum : Int) : ℚ) / (T : ℚ) +
        (l.length : ℚ) / 2 := by
  induction l with
  | nil => simp
  | cons q l ih =>
    have hq := claimerShare_le_q q.2 T R (hl q (List.mem_cons_self q l)) hT
    have ih' := ih (fun r hr => hl r (List.mem_cons_of_mem q hr))
    simp only [List.map_cons, List.sum_cons, List.length_cons]
    rw [Nat.cast_add, Int.cast_add, Nat.cast_add, Nat.cast_one]
    have hsplit : (R : ℚ) * ((q.2 : ℚ) + (((l.map Prod.snd).sum : Int) : ℚ)) / (T : ℚ) =
        (R : ℚ) * (q.2 : ℚ) / (T : ℚ) +
          (R : ℚ) * (((l.map Prod.snd).sum : Int) : ℚ) / (T : ℚ) := by
      ring
    rw [hsplit]
    linarith

theorem otherCreators_sum_le (ownerId : Nat) (top : List (Nat × Int))
    (walletOf : Nat → Option String)
    (htop : top.length ≤ 4) (hamts : ∀ q ∈ top, 0 ≤ q.2) :
    ((otherCreators ownerId top walletOf 90).map Prod.snd).sum ≤ 92 := by
  unfold otherCreators
  have hTnn : 0 ≤ totalSolInvested top := by
    apply List.sum_nonneg
    intro a ha
    obtain ⟨q, hq, rfl⟩ := List.mem_map.mp ha
    exact hamts q hq
  rcases lt_or_le 0 (totalSolInvested top) with hT | hT
  · have h1 := sum_filterMap_share_le (top.filter (fun q => q.1 ≠ ownerId))
      walletOf (totalSolInvested top) 90
    have hsub : ((top.filter (fun q => q.1 ≠ ownerId)).map Prod.snd).sum ≤
        totalSolInvested top := by
      unfold totalSolInvested
      apply List.Sublist.sum_le_sum ((List.filter_sublist _).map Prod.snd)
      intro a ha
      obtain ⟨q, hq, rfl⟩ := List.mem_map.mp ha
      exact hamts q hq
    have hlenF : (top.filter (fun q => q.1 ≠ ownerId)).length ≤ 4 :=
      le_trans (List.length_filter_le _ _) htop
    have h2 := map_claimerShare_sum_le (totalSolInvested top) 90 hT
      (top.filter (fun q => q.1 ≠ ownerId))
      (fun q hq => hamts q (List.mem_of_mem_filter hq))
    have hT' : (0 : ℚ) < ((totalSolInvested top : Int) : ℚ) := by exact_mod_cast hT
    have hsub' : (90 : ℚ) *
        (((top.filter (fun q => q.1 ≠ ownerId)).map Prod.snd).sum : ℚ) /
          ((totalSolInvested top : Int) : ℚ) ≤ 90 := by
      rw [div_le_iff₀ hT']
      have : ((((top.filter (fun q => q.1 ≠ ownerId)).map Prod.snd).sum : Int) : ℚ) ≤
          ((totalSolInvested top : Int) : ℚ) := by exact_mod_cast hsub
      nlinarith
    have hlenF' : ((top.filter (fun q => q.1 ≠ ownerId)).length : ℚ) ≤ 4 := by
      exact_mod_cast hlenF
    have hfinal : ((((top.filter (fun q => q.1 ≠ ownerId)).filterMap (fun q =>
        match walletOf q.1 with
        | some w =>
          let share := claimerShare q.2 (totalSolInvested top) 90
          if 0 < share then some (w, share) else none
        | none => none)).map Prod.snd).sum : ℚ) ≤ 92 := by
      have h1' : ((((top.filter (fun q => q.1 ≠ ownerId)).filterMap (fun q =>
          match walletOf q.1 with
          | some w =>
            let share := claimerShare q.2 (totalSolInvested top) 90
            if 0 < share then some (w, share) else none
          | none => none)).map Prod.snd).sum : ℚ) ≤
          ((((top.filter (fun q => q.1 ≠ ownerId)).map
            (fun q => claimerShare q.2 (totalSolInvested top) 90)).sum : Nat) : ℚ) := by
        exact_mod_cast h1
      linarith
    exact_mod_cast hfinal
  · have hT0 : totalSolInvested top = 0 := le_antisymm hT hTnn
    have hnil : (top.filter (fun q => q.1 ≠ ownerId)).filterMap (fun q =>
        match walletOf q.1 with
        | some w =>
          let share := claimerShare q.2 (totalSolInvested top) 90
          if 0 < share then some (w, share) else none
        | none => none) = [] := by
      rw [List.filterMap_eq_nil_iff]
      intro q hq
      cases hw : walletOf q.1 with
      | none => simp [hw]
      | some w =>
        simp only [hw]
        rw [if_neg]
        unfold claimerShare
        rw [hT0]
        simp
    rw [hnil]
    simp

theorem otherCreators_nil (ownerId : Nat) (walletOf : Nat → Option String)
    (remaining : Nat) : otherCreators ownerId [] walletOf remaining = [] := rfl

theorem prepareCreators_cons (ownerWallet : String) (ownerId : Nat)
    (q : Nat × Int) (t : List (Nat × Int)) (walletOf : Nat → Option String) :
    prepareCreators ownerWallet ownerId (q :: t) walletOf =
      (if 10 + ((otherCreators ownerId (q :: t) walletOf 90).map Prod.snd).sum ≠ 100 then
        (ownerWallet, (max ((10 : Int) +
          (100 - ((10 + ((otherCreators ownerId (q :: t) walletOf 90).map
            Prod.snd).sum : Nat) : Int))) 1).toNat) ::
          otherCreators ownerId (q :: t) walletOf 90
      else (ownerWallet, 10) :: otherCreators ownerId (q :: t) walletOf 90) := rfl

theorem prepareCreators_structure (ownerWallet : String) (ownerId : Nat)
    (top : List (Nat × Int)) (walletOf : Nat → Option String)
    (hS : ((otherCreators ownerId top walletOf 90).map Prod.snd).sum ≤ 92) :
    prepareCreators ownerWallet ownerId top walletOf =
      (ownerWallet,
        100 - ((otherCreators ownerId top walletOf 90).map Prod.snd).sum) ::
        otherCreators ownerId top walletOf 90 := by
  cases top with
  | nil => rfl
  | cons q t =>
    rw [prepareCreators_cons]
    set S := ((otherCreators ownerId (q :: t) walletOf 90).map Prod.snd).sum with hSdef
    by_cases hSe : 10 + S = 100
    · rw [if_neg (by omega)]
      have h90 : (100 : Nat) - S = 10 := by omega
      rw [h90]
    · rw [if_pos (by omega)]
      have hval : (max ((10 : Int) + (100 - ((10 + S : Nat) : Int))) 1).toNat =
          100 - S := by
        have h1 : (10 : Int) + (100 - ((10 + S : Nat) : Int)) = 100 - (S : Int) := by
          push_cast
          ring
        rw [h1]
        have h2 : (1 : Int) ≤ 100 - (S : Int) := by
          have : (S : Int) ≤ 92 := by exact_mod_cast hS
          omega
        rw [max_eq_left h2]
        omega
      rw [hval]

theorem otherCreators_mem (ownerId : Nat) (top : List (Nat × Int))
    (walletOf : Nat → Option String) (remaining : Nat) :
    ∀ e ∈ otherCreators ownerId top walletOf remaining,
      ∃ q, q ∈ top ∧ q.1 ≠ ownerId ∧ walletOf q.1 = some e.1 ∧
        e.2 = claimerShare q.2 (totalSolInvested top) remaining := by
  intro e he
  unfold otherCreators at he
  rw [List.mem_filterMap] at he
  obtain ⟨q, hq, hfq⟩ := he
  have hq' := List.mem_filter.mp hq
  refine ⟨q, hq'.1, by simpa using hq'.2, ?_, ?_⟩
  · cases hw : walletOf q.1 with
    | none => rw [hw] at hfq; simp at hfq
    | some w =>
      rw [hw] at hfq
      dsimp only at hfq
      by_cases hs : 0 < claimerShare q.2 (totalSolInvested top) remaining
      · rw [if_pos hs] at hfq
        cases hfq
        rfl
      · rw [if_neg hs] at hfq
        simp at hfq
  · cases hw : walletOf q.1 with
    | none => rw [hw] at hfq; simp at hfq
    | some w =>
      rw [hw] at hfq
      dsimp only at hfq
      by_cases hs : 0 < claimerShare q.2 (totalSolInvested top) remaining
      · rw [if_pos hs] at hfq
        cases hfq
        rfl
      · rw [if_neg hs] at hfq
        simp at hfq

/-- C7: with at most four top claimers (the repository query limit) carrying
    non-negative bid totals, the creators list of `prepare_metadata` starts
    with the canvas owner; when no other top claimer contributes, the owner's
    entry is exactly share 100 (base 100 for an empty top list, base 10 plus
    the whole 90 residual otherwise); in general the owner's final entry is
    `100 - S` where `S` is the sum of the other claimers' shares, each being
    `round(amount / total · 90)` of its claimer's bid total; and after the
    residual absorption the shares sum to exactly 100. -/
theorem prepare_metadata_creator_shares (ownerWallet : String) (ownerId : Nat)
    (top : List (Nat × Int)) (walletOf : Nat → Option String)
    (htop : top.length ≤ 4) (hamts : ∀ q ∈ top, 0 ≤ q.2) :
    (otherCreators ownerId top walletOf 90 = [] →
      prepareCreators ownerWallet ownerId top walletOf = [(ownerWallet, 100)]) ∧
    prepareCreators ownerWallet ownerId top walletOf =
      (ownerWallet,
        100 - ((otherCreators ownerId top walletOf 90).map Prod.snd).sum) ::
        otherCreators ownerId top walletOf 90 ∧
    ((prepareCreators ownerWallet ownerId top walletOf).map Prod.snd).sum = 100 ∧
    (∀ e ∈ otherCreators ownerId top walletOf 90,
      ∃ q, q ∈ top ∧ q.1 ≠ ownerId ∧ walletOf q.1 = some e.1 ∧
        e.2 = claimerShare q.2 (totalSolInvested top) 90) := by
  have hS := otherCreators_sum_le ownerId top walletOf htop hamts
  have hstruct := prepareCreators_structure ownerWallet ownerId top walletOf hS
  refine ⟨?_, hstruct, ?_, otherCreators_mem ownerId top walletOf 90⟩
  · intro h0
    rw [hstruct, h0]
    rfl
  · rw [hstruct, List.map_cons, List.sum_cons]
    omega

/-- Witness for C7: owner (id 1, also among the top claimers), plus two other
    claimers with bid totals 600 and 300 out of 1000. -/
theorem prepare_metadata_creator_shares_witness :
    (otherCreators 1 [(2, 600), (3, 300), (1, 100)]
        (fun i => if i == 2 then some "W2" else if i == 3 then some "W3" else none) 90 = [] →
      prepareCreators "W0" 1 [(2, 600), (3, 300), (1, 100)]
        (fun i => if i == 2 then some "W2" else if i == 3 then some "W3" else none) =
        [("W0", 100)]) ∧
    prepareCreators "W0" 1 [(2, 600), (3, 300), (1, 100)]
        (fun i => if i == 2 then some "W2" else if i == 3 then some "W3" else none) =
      ("W0",
        100 - ((otherCreators 1 [(2, 600), (3, 300), (1, 100)]
          (fun i => if i == 2 then some "W2" else if i == 3 then some "W3" else none) 90).map
            Prod.snd).sum) ::
        otherCreators 1 [(2, 600), (3, 300), (1, 100)]
          (fun i => if i == 2 then some "W2" else if i == 3 then some "W3" else none) 90 ∧
    ((prepareCreators "W0" 1 [(2, 600), (3, 300), (1, 100)]
        (fun i => if i == 2 then some "W2" else if i == 3 then some "W3" else none)).map
          Prod.snd).sum = 100 ∧
    (∀ e ∈ otherCreators 1 [(2, 600), (3, 300), (1, 100)]
        (fun i => if i == 2 then some "W2" else if i == 3 then some "W3" else none) 90,
      ∃ q, q ∈ [((2 : Nat), (600 : Int)), (3, 300), (1, 100)] ∧ q.1 ≠ 1 ∧
        (fun i => if i == 2 then some "W2" else if i == 3 then some "W3" else none) q.1 =
          some e.1 ∧
        e.2 = claimerShare q.2
          (totalSolInvested [(2, 600), (3, 300), (1, 100)]) 90) :=
  prepare_metadata_creator_shares "W0" 1 [(2, 600), (3, 300), (1, 100)]
    (fun i => if i == 2 then some "W2" else if i == 3 then some "W3" else none)
    (by decide) (by decide)

/-! ## Pixel bidding (`src/services/pixel/mod.rs`) and its API layer
    (`src/api/methods/pixel.rs`, `src/api/types.rs`) -/

/-- Rust `as u64` on an `i64` value: two's-complement wrap into `[0, 2^64)`. -/
def u64Cast (i : Int) : Nat := (i % (2 ^ 64 : Int)).toNat

/-- Canvas configuration values read by the pixel service
    (`state.config.canvas`). -/
structure CanvasConfig where
  min_bid_lamports : Nat
  lock_ms : Nat
deriving DecidableEq, Repr

/-- `PlacePixelResult` from `src/services/pixel/types.rs`. -/
structure PlacePixelResult where
  x : Int
  y : Int
  color : Int
  requires_confirmation : Bool
  lock_expires_at : Option Nat
  previous_owner_wallet : Option String
deriving DecidableEq, Repr

/-- `PlacePixelBidResponse` from `src/api/types.rs` (lines 235-242): the
    JSON-RPC response struct.  It has no `lock_expires_at` field. -/
structure PlacePixelBidResponse where
  success : Bool
  x : Int
  y : Int
  color : Int
  requires_confirmation : Bool
  previous_owner_wallet : Option String
deriving DecidableEq, Repr

/-- The minimum required bid of `place_pixel_bid`: current price + 1 when the
    pixel row exists, else the configured minimum. -/
def minRequiredBid (cfg : CanvasConfig) (current_pixel : Option PixelRec) : Int :=
  match current_pixel with
  | some p => p.priceLamports + 1
  | none => (cfg.min_bid_lamports : Int)

/-- The `previous_owner_wallet` resolution of `place_pixel_bid`: the wallet
    address of the current pixel owner, when the pixel has one and the user
    row is found. -/
def previousOwnerWallet (current_pixel : Option PixelRec)
    (findUserById : Nat → Option UserRec) : Option String :=
  match current_pixel.bind (fun p => p.ownerId) with
  | some owner_id => (findUserById owner_id).map (fun u => u.wallet_address)
  | none => none

/-- `place_pixel_bid` from `src/services/pixel/mod.rs` (lines 140-209).
    `current_pixel` is the row fetched by `PixelRepository::find_pixel`;
    `findUserById` models the owner-wallet lookup; `lock_acquired` is the
    outcome of the Redis `SETNX` on the pixel lock key; `now` is the Unix
    time in milliseconds at which `lock_expires_at` is computed. -/
def place_pixel_bid (cfg : CanvasConfig) (current_pixel : Option PixelRec)
    (findUserById : Nat → Option UserRec) (lock_acquired : Bool) (now : Nat)
    (x y color bid_lamports : Int) : Except AppError PlacePixelResult :=
  if u64Cast bid_lamports < cfg.min_bid_lamports then
    Except.error (AppError.BidTooLow cfg.min_bid_lamports)
  else if bid_lamports < minRequiredBid cfg current_pixel then
    Except.error (AppError.BidTooLow (u64Cast (minRequiredBid cfg current_pixel)))
  else if ¬ lock_acquired then
    Except.error AppError.PixelLocked
  else
    Except.ok
      { x := x, y := y, color := color, requires_confirmation := true,
        lock_expires_at := some (now + cfg.lock_ms),
        previous_owner_wallet := previousOwnerWallet current_pixel findUserById }

/-- The response construction of the JSON-RPC handler `place_pixel_bid` in
    `src/api/methods/pixel.rs` (lines 42-49): `lock_expires_at` is not
    copied into the response. -/
def toPlacePixelBidResponse (r : PlacePixelResult) : PlacePixelBidResponse :=
  { success := true, x := r.x, y := r.y, color := r.color,
    requires_confirmation := r.requires_confirmation,
    previous_owner_wallet := r.previous_owner_wallet }

/-- Counterexample to C4 as stated: two successful `place` calls that differ
    only in `now` produce service results with different `lock_expires_at`
    but the same JSON-RPC response — so the response returned to the caller
    does not contain `lock_expires_at = now_ms + lock_ms`. -/
theorem place_pixel_bid_response_drops_lock_expiry :
    ∃ r1 r2 : PlacePixelResult,
      place_pixel_bid ⟨100, 30000⟩ none (fun _ => none) true 0 1 2 3 100 =
        Except.ok r1 ∧
      place_pixel_bid ⟨100, 30000⟩ none (fun _ => none) true 777 1 2 3 100 =
        Except.ok r2 ∧
      r1.lock_expires_at ≠ r2.lock_expires_at ∧
      toPlacePixelBidResponse r1 = toPlacePixelBidResponse r2 := by
  refine ⟨_, _, rfl, rfl, by decide, rfl⟩

/-- C4 (amended): on a Published canvas, a `place` that passes both bid
    checks and acquires the pixel lock returns a service-level result with
    `requires_confirmation = true`, `lock_expires_at = now_ms + lock_ms` and
    `previous_owner_wallet` resolving the current owner's wallet (null when
    the pixel has no owner); the JSON-RPC response handed to the caller
    keeps `requires_confirmation` and `previous_owner_wallet` but omits
    `lock_expires_at`. -/
theorem place_pixel_bid_lock_expiry (cfg : CanvasConfig)
    (current_pixel : Option PixelRec) (findUserById : Nat → Option UserRec)
    (now : Nat) (x y color bid_lamports : Int)
    (hbid1 : ¬ u64Cast bid_lamports < cfg.min_bid_lamports)
    (hbid2 : ¬ bid_lamports < minRequiredBid cfg current_pixel) :
    place_pixel_bid cfg current_pixel findUserById true now x y color bid_lamports =
      Except.ok
        { x := x, y := y, color := color, requires_confirmation := true,
          lock_expires_at := some (now + cfg.lock_ms),
          previous_owner_wallet := previousOwnerWallet current_pixel findUserById } ∧
    (place_pixel_bid cfg current_pixel findUserById true now x y color
        bid_lamports).map toPlacePixelBidResponse =
      Except.ok
        { success := true, x := x, y := y, color := color,
          requires_confirmation := true,
          previous_owner_wallet := previousOwnerWallet current_pixel findUserById } ∧
    (∀ p owner u, current_pixel = some p → p.ownerId = some owner →
      findUserById owner = some u →
      previousOwnerWallet current_pixel findUserById = some u.wallet_address) ∧
    (current_pixel.bind (fun p => p.ownerId) = none →
      previousOwnerWallet current_pixel findUserById = none) := by
  have hrun : place_pixel_bid cfg current_pixel findUserById true now x y color
      bid_lamports =
      Except.ok
        { x := x, y := y, color := color, requires_confirmation := true,
          lock_expires_at := some (now + cfg.lock_ms),
          previous_owner_wallet := previousOwnerWallet current_pixel findUserById } := by
    unfold place_pixel_bid
    rw [if_neg hbid1, if_neg hbid2, if_neg (by simp)]
  refine ⟨hrun, by rw [hrun]; rfl, ?_, ?_⟩
  · intro p owner u hp howner hu
    unfold previousOwnerWallet
    rw [hp, show (some p).bind (fun p => p.ownerId) = p.ownerId from rfl, howner]
    dsimp only
    rw [hu]
    rfl
  · intro hnone
    unfold previousOwnerWallet
    rw [hnone]

/-- Witness for C4 (amended): a concrete owned pixel at price 1000, bid 2000. -/
theorem place_pixel_bid_lock_expiry_witness :
    (¬ u64Cast 2000 < (⟨100, 30000⟩ : CanvasConfig).min_bid_lamports) ∧
    (¬ (2000 : Int) < minRequiredBid ⟨100, 30000⟩
      (some ⟨4, 5, 6, some 9, 1000⟩)) ∧
    (place_pixel_bid ⟨100, 30000⟩ (some ⟨4, 5, 6, some 9, 1000⟩)
        (fun i => if i == 9 then some ⟨9, "PREVWALLET"⟩ else none) true 50 4 5 6 2000 =
      Except.ok
        { x := 4, y := 5, color := 6, requires_confirmation := true,
          lock_expires_at := some (50 + (⟨100, 30000⟩ : CanvasConfig).lock_ms),
          previous_owner_wallet := previousOwnerWallet (some ⟨4, 5, 6, some 9, 1000⟩)
            (fun i => if i == 9 then some ⟨9, "PREVWALLET"⟩ else none) } ∧
      (place_pixel_bid ⟨100, 30000⟩ (some ⟨4, 5, 6, some 9, 1000⟩)
          (fun i => if i == 9 then some ⟨9, "PREVWALLET"⟩ else none) true 50 4 5 6
          2000).map toPlacePixelBidResponse =
        Except.ok
          { success := true, x := 4, y := 5, color := 6,
            requires_confirmation := true,
            previous_owner_wallet := previousOwnerWallet (some ⟨4, 5, 6, some 9, 1000⟩)
              (fun i => if i == 9 then some ⟨9, "PREVWALLET"⟩ else none) } ∧
      (∀ p owner u, (some (⟨4, 5, 6, some 9, 1000⟩ : PixelRec)) = some p →
        p.ownerId = some owner →
        (fun i => if i == 9 then some (⟨9, "PREVWALLET"⟩ : UserRec) else none) owner = some u →
        previousOwnerWallet (some ⟨4, 5, 6, some 9, 1000⟩)
          (fun i => if i == 9 then some ⟨9, "PREVWALLET"⟩ else none) =
          some u.wallet_address) ∧
      ((some (⟨4, 5, 6, some 9, 1000⟩ : PixelRec)).bind (fun p => p.ownerId) = none →
        previousOwnerWallet (some ⟨4, 5, 6, some 9, 1000⟩)
          (fun i => if i == 9 then some ⟨9, "PREVWALLET"⟩ else none) = none)) :=
  ⟨by decide, by decide,
    place_pixel_bid_lock_expiry ⟨100, 30000⟩ (some ⟨4, 5, 6, some 9, 1000⟩)
      (fun i => if i == 9 then some ⟨9, "PREVWALLET"⟩ else none) 50 4 5 6 2000
      (by decide) (by decide)⟩

/-! ## `confirm_pixel_bid` and its side effects
    (`src/services/pixel/mod.rs`, lines 211-297; `src/ws/types.rs`) -/

/-- `RoomCanvasUpdate` from `src/ws/types.rs` (UUIDs modelled by `Nat`). -/
inductive RoomCanvasUpdate where
  | Pixel (x y color : Nat) (owner_id : Option Nat) (price_lamports : Option Nat)
  | PixelLocked (x y : Nat) (user_id : Nat)
  | PixelUnlocked (x y : Nat)
  | PublishingStarted
  | Published (pda : String)
  | PublishingFailed (reason : String)
  | MintingStarted
  | Minted (mint_address : String)
  | MintingFailed (reason : String)
  | MintCountdown (seconds : Nat)
  | MintCountdownCancelled
  | UserJoined (user_id : Nat)
  | UserLeft (user_id : Nat)
  | ConnectionCount (count : Nat)
  | Finalized
deriving DecidableEq, Repr

/-- The externally visible side effects a pixel-service operation can
    perform, in program order. -/
inductive Effect where
  | localCacheUpdatePixel (canvas_id : Nat) (x y color : Int)
      (owner_id : Option Nat) (price : Int)
  | redisDelete (key : String)
  | broadcast (canvas_id : Nat) (update : RoomCanvasUpdate)
deriving DecidableEq, Repr

/-- Whether an effect is a room broadcast. -/
def Effect.isBroadcast : Effect → Bool
  | .broadcast _ _ => true
  | _ => false

/-- `CacheKey::pixel_lock` from `src/infrastructure/cache/keys.rs`:
    `lock:pixel:` followed by `canvas_id`, `x as u8`, `y as u8`. -/
def pixelLockKey (canvas_id : Nat) (x y : Int) : String :=
  "lock:pixel:" ++ toString canvas_id ++ ":" ++ toString (u8Cast x) ++ ":" ++
    toString (u8Cast y)

/-- `PixelInfo` from `src/services/pixel/types.rs`. -/
structure PixelInfo where
  x : Int
  y : Int
  color : Int
  owner_id : Option Nat
  price_lamports : Int
deriving DecidableEq, Repr

/-- The tail of `confirm_pixel_bid` after the lock and outbid checks: verify
    the transaction, upsert, then join the local-cache update and the
    lock-key delete.  No broadcast is emitted. -/
def confirm_pixel_bid_tail (canvas_id user_id : Nat) (x y color bid_lamports : Int)
    (txVerified : Except AppError Bool) : Except AppError PixelInfo × List Effect :=
  match txVerified with
  | Except.error e => (Except.error e, [])
  | Except.ok false =>
    (Except.error (AppError.TransactionFailed "Transaction verification failed"), [])
  | Except.ok true =>
    (Except.ok
      { x := x, y := y, color := color, owner_id := some user_id,
        price_lamports := bid_lamports },
     [Effect.localCacheUpdatePixel canvas_id x y color (some user_id) bid_lamports,
      Effect.redisDelete (pixelLockKey canvas_id x y)])

/-- `confirm_pixel_bid` from `src/services/pixel/mod.rs` (lines 211-297),
    with its side effects logged: `lockHolder` is the user id stored under
    the pixel lock key in Redis (`None` when the key is absent); `current`
    is the pixel row; `txVerified` is the outcome of
    `verify_program_transaction`; the upsert stores
    `(color, owner = user_id, price = bid_lamports)`.  After the upsert the
    source joins a local-cache update and the lock-key delete — and nothing
    else: no room broadcast appears anywhere in the function or in its
    JSON-RPC handler `confirm_pixel_bid` in `src/api/methods/pixel.rs`. -/
def confirm_pixel_bid (cfg : CanvasConfig) (canvas_id user_id : Nat)
    (x y color bid_lamports : Int) (lockHolder : Option Nat)
    (current : Option PixelRec) (txVerified : Except AppError Bool) :
    Except AppError PixelInfo × List Effect :=
  if u64Cast bid_lamports < cfg.min_bid_lamports then
    (Except.error (AppError.BidTooLow cfg.min_bid_lamports), [])
  else
    match lockHolder with
    | none =>
      (Except.error (AppError.InvalidParams "No pending bid for this pixel"), [])
    | some holder =>
      if holder ≠ user_id then
        (Except.error (AppError.InvalidParams "This pixel is locked by another user"), [])
      else
        match current with
        | some p =>
          if bid_lamports ≤ p.priceLamports then
            (Except.error (AppError.BidTooLow (u64Cast (p.priceLamports + 1))), [])
          else confirm_pixel_bid_tail canvas_id user_id x y color bid_lamports txVerified
        | none => confirm_pixel_bid_tail canvas_id user_id x y color bid_lamports txVerified

theorem confirm_pixel_bid_tail_no_broadcast (canvas_id user_id : Nat)
    (x y color bid_lamports : Int) (txVerified : Except AppError Bool) :
    ∀ e ∈ (confirm_pixel_bid_tail canvas_id user_id x y color bid_lamports
      txVerified).2, e.isBroadcast = false := by
  intro e he
  unfold confirm_pixel_bid_tail at he
  match txVerified with
  | Except.error er => simp at he
  | Except.ok false => simp at he
  | Except.ok true =>
    simp only [List.mem_cons, List.not_mem_nil, or_false] at he
    rcases he with he | he <;> (rw [he]; rfl)

/-- Counterexample to C5 as stated: a fully successful `confirm_pixel_bid`
    (lock held by the caller, bid above the current price, transaction
    verified) performs no broadcast at all — in particular neither the
    `Pixel` update nor `PixelUnlocked` is sent. -/
theorem confirm_pixel_bid_no_broadcast :
    ((confirm_pixel_bid ⟨100, 30000⟩ 1 2 3 4 5 2000 (some 2)
        (some ⟨3, 4, 0, some 9, 1000⟩) (Except.ok true)).1 =
      Except.ok
        { x := 3, y := 4, color := 5, owner_id := some 2, price_lamports := 2000 }) ∧
    ((confirm_pixel_bid ⟨100, 30000⟩ 1 2 3 4 5 2000 (some 2)
        (some ⟨3, 4, 0, some 9, 1000⟩) (Except.ok true)).2.filter
          Effect.isBroadcast = []) := by
  constructor <;> rfl

/-- C5 (amended): a successful `confirm_pixel_bid` returns the upserted
    pixel's info, and its side effects are exactly the local-cache pixel
    update followed by the pixel-lock delete; no broadcast of any kind — in
    particular no `Pixel` and no `PixelUnlocked` update — is emitted, on any
    path of the function. -/
theorem confirm_pixel_bid_effects (cfg : CanvasConfig) (canvas_id user_id : Nat)
    (x y color bid_lamports : Int) (lockHolder : Option Nat)
    (current : Option PixelRec) (txVerified : Except AppError Bool)
    (hbid : ¬ u64Cast bid_lamports < cfg.min_bid_lamports)
    (hlock : lockHolder = some user_id)
    (hprice : ∀ p, current = some p → p.priceLamports < bid_lamports)
    (htx : txVerified = Except.ok true) :
    confirm_pixel_bid cfg canvas_id user_id x y color bid_lamports lockHolder
        current txVerified =
      (Except.ok
        { x := x, y := y, color := color, owner_id := some user_id,
          price_lamports := bid_lamports },
       [Effect.localCacheUpdatePixel canvas_id x y color (some user_id) bid_lamports,
        Effect.redisDelete (pixelLockKey canvas_id x y)]) ∧
    (∀ lockHolder2 current2 txVerified2 e,
      e ∈ (confirm_pixel_bid cfg canvas_id user_id x y color bid_lamports
        lockHolder2 current2 txVerified2).2 → e.isBroadcast = false) := by
  constructor
  · subst hlock htx
    unfold confirm_pixel_bid
    rw [if_neg hbid]
    dsimp only
    rw [if_neg (by simp)]
    cases hcur : current with
    | none => rfl
    | some p =>
      dsimp only
      rw [if_neg (not_le.mpr (hprice p hcur))]
      rfl
  · intro lockHolder2 current2 txVerified2 e he
    unfold confirm_pixel_bid at he
    split at he
    · simp at he
    · split at he
      · simp at he
      · split at he
        · simp at he
        · split at he
          · split at he
            · simp at he
            · exact confirm_pixel_bid_tail_no_broadcast _ _ _ _ _ _ _ e he
          · exact confirm_pixel_bid_tail_no_broadcast _ _ _ _ _ _ _ e he

/-- Witness for C5 (amended) at a concrete successful confirmation. -/
theorem confirm_pixel_bid_effects_witness :
    (confirm_pixel_bid ⟨100, 30000⟩ 1 2 3 4 5 2000 (some 2)
        (some ⟨3, 4, 0, some 9, 1000⟩) (Except.ok true) =
      (Except.ok
        { x := 3, y := 4, color := 5, owner_id := some 2, price_lamports := 2000 },
       [Effect.localCacheUpdatePixel 1 3 4 5 (some 2) 2000,
        Effect.redisDelete (pixelLockKey 1 3 4)]) ∧
    (∀ lockHolder2 current2 txVerified2 e,
      e ∈ (confirm_pixel_bid ⟨100, 30000⟩ 1 2 3 4 5 2000 lockHolder2
        current2 txVerified2).2 → e.isBroadcast = false)) :=
  confirm_pixel_bid_effects ⟨100, 30000⟩ 1 2 3 4 5 2000 (some 2)
    (some ⟨3, 4, 0, some 9, 1000⟩) (Except.ok true)
    (by decide) rfl
    (by rintro p hp; injection hp with hp; subst hp; decide)
    rfl

/-! ## Transaction verification (`src/services/solana/verify.rs`, lines 9-105) -/

/-- What one `get_signature_statuses` call observes:
    an RPC-level error, no status for the signature, or a status with
    `err = status.err.is_some()` and `confirmed` = whether
    `confirmation_status` is Processed/Confirmed/Finalized. -/
inductive PollStatus where
  | rpcErr (msg : String)
  | notFound
  | status (err : Bool) (confirmed : Bool)
deriving DecidableEq, Repr

/-- Exit state of the 30-iteration poll loop. -/
inductive PollExit where
  | returnedFalse
  | done (lastErr : Option String)
deriving DecidableEq, Repr

/-- The poll loop of `verify_program_transaction` (lines 23-52): each
    iteration returns `Ok(false)` on an on-chain error status, breaks on a
    confirmed status, and records the error string of a failed RPC call in
    `last_status_err` (which a later successful iteration does not clear). -/
def pollLoop : List PollStatus → Option String → PollExit
  | [], lastErr => PollExit.done lastErr
  | p :: rest, lastErr =>
    match p with
    | PollStatus.rpcErr m => pollLoop rest (some m)
    | PollStatus.notFound => pollLoop rest lastErr
    | PollStatus.status err confirmed =>
      if err then PollExit.returnedFalse
      else if confirmed then PollExit.done lastErr
      else pollLoop rest lastErr

/-- `verify_program_transaction` (lines 9-105), after signature and program
    id parsing: `polls` is the sequence of outcomes the 30 poll iterations
    would observe (the loop runs at most 30 of them); `fetch` is the
    `get_transaction_with_config` outcome — an RPC or encoding error, or the
    decoded account-key list.  After the loop, `last_status_err.is_some()`
    is checked FIRST — even when the loop broke on a confirmed status. -/
def verify_program_transaction (polls : List PollStatus)
    (fetch : Except String (List String)) (program_id : String) :
    Except AppError Bool :=
  match pollLoop (polls.take 30) none with
  | PollExit.returnedFalse => Except.ok false
  | PollExit.done lastErr =>
    if lastErr.isSome then
      Except.error (AppError.SolanaRpc
        ("Transaction not confirmed after 30s. Last error: " ++ lastErr.getD ""))
    else
      match fetch with
      | Except.error e =>
        Except.error (AppError.SolanaRpc ("Failed to fetch transaction: " ++ e))
      | Except.ok account_keys =>
        if program_id ∉ account_keys then
          Except.error (AppError.InvalidParams "Transaction does not involve our program")
        else Except.ok true

/-- Whether a verification outcome is a `SolanaRpc` error. -/
def isSolanaRpcError : Except AppError Bool → Bool
  | Except.error (AppError.SolanaRpc _) => true
  | _ => false

/-- Counterexample to C6 as stated: the first poll's RPC call errors, the
    second poll observes a confirmed status with no on-chain error, the
    program id is in the fetched account-key list — yet the function returns
    a `SolanaRpc` error instead of proceeding to the fetch and returning
    `true`, because the stale `last_status_err` is checked after the loop
    even when a later poll confirmed. -/
theorem verify_program_transaction_counterexample :
    ([PollStatus.rpcErr "boom", PollStatus.status false true].take 30).contains
        (PollStatus.status false true) = true ∧
    ("PROG" ∈ ["PROG"]) ∧
    isSolanaRpcError (verify_program_transaction
      [PollStatus.rpcErr "boom", PollStatus.status false true]
      (Except.ok ["PROG"]) "PROG") = true ∧
    verify_program_transaction
      [PollStatus.rpcErr "boom", PollStatus.status false true]
      (Except.ok ["PROG"]) "PROG" ≠ Except.ok true := by
  refine ⟨by decide, by decide, rfl, fun h => Except.noConfusion h⟩

/-- C6 (amended): after the poll loop, the recorded `last_status_err` is
    checked first, so the function returns a `SolanaRpc` error whenever any
    executed poll's RPC call errored and the loop did not return early on an
    on-chain error status — including when a later poll observed a confirmed
    status; only a loop exit with no recorded RPC error proceeds to the
    transaction fetch, which returns true iff the program id appears in the
    account-key list (an absent program id is an `InvalidParams` error and a
    failed fetch is a `SolanaRpc` error); an early exit on an on-chain error
    status returns `false`. -/
theorem verify_program_transaction_spec (polls : List PollStatus)
    (fetch : Except String (List String)) (program_id : String) :
    (∀ m, pollLoop (polls.take 30) none = PollExit.done (some m) →
      verify_program_transaction polls fetch program_id =
        Except.error (AppError.SolanaRpc
          ("Transaction not confirmed after 30s. Last error: " ++ m))) ∧
    (pollLoop (polls.take 30) none = PollExit.done none →
      verify_program_transaction polls fetch program_id =
        match fetch with
        | Except.error e =>
          Except.error (AppError.SolanaRpc ("Failed to fetch transaction: " ++ e))
        | Except.ok account_keys =>
          if program_id ∉ account_keys then
            Except.error (AppError.InvalidParams "Transaction does not involve our program")
          else Except.ok true) ∧
    (pollLoop (polls.take 30) none = PollExit.returnedFalse →
      verify_program_transaction polls fetch program_id = Except.ok false) ∧
    (∀ m rest lastErr, pollLoop (PollStatus.rpcErr m :: rest) lastErr =
      pollLoop rest (some m)) ∧
    (∀ rest lastErr, pollLoop (PollStatus.status false true :: rest) lastErr =
      PollExit.done lastErr) := by
  refine ⟨?_, ?_, ?_, fun m rest lastErr => rfl, fun rest lastErr => rfl⟩
  · intro m hm
    unfold verify_program_transaction
    rw [hm]
    rfl
  · intro hm
    unfold verify_program_transaction
    rw [hm]
    rfl
  · intro hm
    unfold verify_program_transaction
    rw [hm]

/-- Witness for C6 (amended), exercising both the stale-error path and the
    clean confirmed path. -/
theorem verify_program_transaction_spec_witness :
    (pollLoop ([PollStatus.rpcErr "boom", PollStatus.status false true].take 30) none =
      PollExit.done (some "boom") ∧
    verify_program_transaction [PollStatus.rpcErr "boom", PollStatus.status false true]
        (Except.ok ["PROG"]) "PROG" =
      Except.error (AppError.SolanaRpc
        ("Transaction not confirmed after 30s. Last error: " ++ "boom"))) ∧
    (pollLoop ([PollStatus.status false true].take 30) none = PollExit.done none ∧
    verify_program_transaction [PollStatus.status false true]
        (Except.ok ["PROG"]) "PROG" =
      match (Except.ok ["PROG"] : Except String (List String)) with
      | Except.error e =>
        Except.error (AppError.SolanaRpc ("Failed to fetch transaction: " ++ e))
      | Except.ok account_keys =>
        if "PROG" ∉ account_keys then
          Except.error (AppError.InvalidParams "Transaction does not involve our program")
        else Except.ok true) :=
  ⟨⟨rfl, (verify_program_transaction_spec
      [PollStatus.rpcErr "boom", PollStatus.status false true]
      (Except.ok ["PROG"]) "PROG").1 "boom" rfl⟩,
   ⟨rfl, (verify_program_transaction_spec [PollStatus.status false true]
      (Except.ok ["PROG"]) "PROG").2.1 rfl⟩⟩

/-! ## Canvas collaboration (`src/services/canvas/collaboration.rs`,
    lines 18-44) -/

/-- The database state the collaboration service touches: the canvases table
    (reused from the lifecycle model) and the collaborators table of
    `(canvas_id, user_id)` rows. -/
structure CollabDb where
  canvases : List CanvasRec
  collaborators : List (Nat × Nat)
deriving DecidableEq, Repr

/-- `CanvasRepository::find_canvas_by_invite_code`. -/
def find_canvas_by_invite_code (db : CollabDb) (code : String) : Option CanvasRec :=
  db.canvases.find? (fun c => c.inviteCode == code)

/-- `CanvasRepository::is_canvas_collaborator`: whether a
    `(canvas_id, user_id)` row exists. -/
def is_canvas_collaborator (db : CollabDb) (canvas_id user_id : Nat) : Bool :=
  db.collaborators.any (fun c => c.1 == canvas_id && c.2 == user_id)

/-- `JoinCanvasResult` from `src/services/canvas/types.rs`. -/
structure JoinCanvasResult where
  canvas_id : Nat
  already_member : Bool
deriving DecidableEq, Repr

/-- `join_canvas` from `src/services/canvas/collaboration.rs` (lines 18-44):
    resolve the invite code, return `already_member = true` for an existing
    collaborator, otherwise insert a collaborator row
    (`CanvasRepository::add_canvas_collaborator`).  The function reads no
    collaborator count and no `max_collaborators` configuration. -/
def join_canvas (db : CollabDb) (user_id : Nat) (invite_code : String) :
    Except AppError (JoinCanvasResult × CollabDb) :=
  match find_canvas_by_invite_code db invite_code with
  | none => Except.error AppError.CanvasNotFound
  | some canvas =>
    if is_canvas_collaborator db canvas.id user_id then
      Except.ok ({ canvas_id := canvas.id, already_member := true }, db)
    else
      Except.ok ({ canvas_id := canvas.id, already_member := false },
        { db with collaborators := db.collaborators ++ [(canvas.id, user_id)] })

/-- Number of collaborators of one canvas. -/
def collaboratorCount (db : CollabDb) (canvas_id : Nat) : Nat :=
  (db.collaborators.filter (fun c => c.1 == canvas_id)).length

/-- A concrete canvas row used by the collaboration examples. -/
def exampleCanvasRow : CanvasRec :=
  { id := 1, ownerId := 7, name := "c", inviteCode := "CODE1234",
    state := CanvasState.draft, canvasPda := none, mintAddress := none,
    totalEscrowed := 0 }

/-- Counterexample to C9 as stated: with the configured maximum equal to 1,
    a canvas that already has 1 collaborator still accepts a join from a new
    user — the request succeeds and a collaborator row is inserted, taking
    the canvas over the maximum. -/
theorem join_canvas_over_max_counterexample :
    collaboratorCount { canvases := [exampleCanvasRow], collaborators := [(1, 7)] } 1 = 1 ∧
    (∃ r db2,
      join_canvas { canvases := [exampleCanvasRow], collaborators := [(1, 7)] }
          8 "CODE1234" = Except.ok (r, db2) ∧
      r.already_member = false ∧
      collaboratorCount db2 1 = 2) := by
  refine ⟨rfl, _, _, rfl, rfl, rfl⟩

/-- C9 (amended): `join_canvas` enforces no collaborator maximum: whenever
    the invite code resolves and the user is not yet a collaborator, the
    join succeeds, reports `already_member = false`, and appends a
    collaborator row, raising the canvas's collaborator count by one
    whatever it already was (the `MAX_COLLABORATORS` configuration is used
    only as the room manager's per-room connection bound in `main.rs`). -/
theorem join_canvas_always_inserts (db : CollabDb) (user_id : Nat)
    (invite_code : String) (canvas : CanvasRec)
    (hfind : find_canvas_by_invite_code db invite_code = some canvas)
    (hnot : is_canvas_collaborator db canvas.id user_id = false) :
    join_canvas db user_id invite_code =
      Except.ok ({ canvas_id := canvas.id, already_member := false },
        { db with collaborators := db.collaborators ++ [(canvas.id, user_id)] }) ∧
    collaboratorCount
      { db with collaborators := db.collaborators ++ [(canvas.id, user_id)] }
      canvas.id = collaboratorCount db canvas.id + 1 := by
  constructor
  · unfold join_canvas
    rw [hfind]
    dsimp only
    rw [hnot]
    rfl
  · unfold collaboratorCount
    rw [List.filter_append]
    simp

/-- Witness for C9 (amended): joining a canvas that already has two
    collaborators still inserts a third row. -/
theorem join_canvas_always_inserts_witness :
    (join_canvas { canvases := [exampleCanvasRow], collaborators := [(1, 7), (1, 9)] }
        8 "CODE1234" =
      Except.ok ({ canvas_id := exampleCanvasRow.id, already_member := false },
        { canvases := [exampleCanvasRow],
          collaborators := [(1, 7), (1, 9)] ++ [(exampleCanvasRow.id, 8)] }) ∧
    collaboratorCount
      { canvases := [exampleCanvasRow],
        collaborators := [(1, 7), (1, 9)] ++ [(exampleCanvasRow.id, 8)] }
      exampleCanvasRow.id =
      collaboratorCount
        { canvases := [exampleCanvasRow],
          collaborators := [(1, 7), (1, 9)] } exampleCanvasRow.id + 1) :=
  join_canvas_always_inserts
    { canvases := [exampleCanvasRow], collaborators := [(1, 7), (1, 9)] }
    8 "CODE1234" exampleCanvasRow rfl rfl

end PixelArchives
